import Mathlib

/-!
Verification development for the lazypaw request-to-SQL pipeline.

The definitions below are shallow embeddings of the Rust source in
`src/`: filter parsing (`src/filters.rs`), SQL generation
(`src/query.rs`), select parsing (`src/select.rs`), schema lookup and
embed resolution (`src/schema.rs`), the embed attach step of the GET
handler (`src/handlers.rs`), error mapping (`src/error.rs`), role
resolution (`src/auth.rs`), and the change-feed fan-out
(`src/realtime.rs`).

Strings are modelled with Lean `String`; Rust string helpers
(`to_lowercase`, `trim`, `split`, `strip_prefix`, `contains`,
`replace`) are re-implemented at the character-list level so that all
definitions reduce inside the kernel. The inputs the source applies
them to are ASCII, where the re-implementations agree with the Rust
originals.
-/

namespace Lazypaw

/- ── Character and string helpers (models of Rust `str` methods) ── -/

/-- ASCII lowercase of one character; agrees with Rust `to_lowercase`
on ASCII input. -/
def asciiLower (c : Char) : Char :=
  if 'A' ≤ c ∧ c ≤ 'Z' then Char.ofNat (c.toNat + 32) else c

/-- ASCII uppercase of one character; agrees with Rust `to_uppercase`
on ASCII input. -/
def asciiUpper (c : Char) : Char :=
  if 'a' ≤ c ∧ c ≤ 'z' then Char.ofNat (c.toNat - 32) else c

/-- Model of Rust `str::to_lowercase` (ASCII fragment). -/
def lowerStr (s : String) : String := ⟨s.data.map asciiLower⟩

/-- Model of Rust `str::to_uppercase` (ASCII fragment). -/
def upperStr (s : String) : String := ⟨s.data.map asciiUpper⟩

/-- Model of Rust `eq_ignore_ascii_case`. -/
def eqIgnoreAsciiCase (a b : String) : Bool :=
  decide (a.data.map asciiLower = b.data.map asciiLower)

/-- ASCII whitespace test used by the `trim` model. -/
def isWs (c : Char) : Bool := c = ' ' || c = '\t' || c = '\n' || c = '\r'

/-- Trim on character lists. -/
def trimL (s : List Char) : List Char :=
  ((s.dropWhile isWs).reverse.dropWhile isWs).reverse

/-- Model of Rust `str::trim` (ASCII whitespace fragment). -/
def strTrim (s : String) : String := ⟨trimL s.data⟩

/-- Split a character list on a separator character; like Rust
`str::split(char)`, the empty input yields one empty piece. -/
def splitCharL (sep : Char) : List Char → List (List Char)
  | [] => [[]]
  | c :: rest =>
    match splitCharL sep rest with
    | [] => if c = sep then [[], []] else [[c]]
    | hd :: tl => if c = sep then [] :: hd :: tl else (c :: hd) :: tl

/-- Model of Rust `str::split(char)`. -/
def splitChar (sep : Char) (s : String) : List String :=
  (splitCharL sep s.data).map (fun l => ⟨l⟩)

/-- Prefix stripping on character lists. -/
def stripPrefixL : List Char → List Char → Option (List Char)
  | [], s => some s
  | _ :: _, [] => none
  | p :: ps, c :: cs => if c = p then stripPrefixL ps cs else none

/-- Model of Rust `str::strip_prefix`. -/
def stripPre (p : String) (s : String) : Option String :=
  (stripPrefixL p.data s.data).map (fun l => ⟨l⟩)

/-- Boolean prefix test on character lists. -/
def isPrefixB : List Char → List Char → Bool
  | [], _ => true
  | _ :: _, [] => false
  | p :: ps, c :: cs => c = p && isPrefixB ps cs

/-- Model of Rust `str::starts_with(&str)`. -/
def strStartsWith (s pat : String) : Bool := isPrefixB pat.data s.data

/-- Model of Rust `Vec::join` on strings. -/
def joinSep (sep : String) : List String → String
  | [] => ""
  | [x] => x
  | x :: rest => x ++ sep ++ joinSep sep rest

/-- Substring search on character lists. -/
def containsSubL (pat : List Char) : List Char → Bool
  | [] => pat.isEmpty
  | c :: cs => isPrefixB pat (c :: cs) || containsSubL pat cs

/-- Model of Rust `str::contains(&str)`. -/
def strContainsSub (s pat : String) : Bool := containsSubL pat.data s.data

/- ── Error type (src/error.rs) ── -/

/-- The `Error` enum of `src/error.rs`. -/
inductive Error where
  | NotFound (msg : String)
  | BadRequest (msg : String)
  | Unauthorized (msg : String)
  | Forbidden (msg : String)
  | Conflict (msg : String)
  | Sql (msg : String)
  | Pool (msg : String)
  | Internal (msg : String)
  | SingleObjectExpected (rows : Nat)
deriving DecidableEq

/-- `sql_error_to_status` of `src/error.rs`: map a driver message to an
HTTP status by uppercase substring search, in source order. -/
def sql_error_to_status (msg : String) : Nat :=
  let upper := upperStr msg
  if strContainsSub upper "VIOLATION OF PRIMARY KEY"
      || strContainsSub upper "VIOLATION OF UNIQUE KEY"
      || strContainsSub upper "CANNOT INSERT DUPLICATE"
      || strContainsSub upper "UNIQUE CONSTRAINT" then 409
  else if strContainsSub upper "FOREIGN KEY" then 409
  else if strContainsSub upper "PERMISSION DENIED"
      || strContainsSub upper "ACCESS DENIED" then 403
  else if strContainsSub upper "LOGIN FAILED" then 401
  else if strContainsSub upper "INVALID OBJECT NAME"
      || strContainsSub upper "DOES NOT EXIST" then 404
  else if strContainsSub upper "CONVERSION FAILED"
      || strContainsSub upper "SYNTAX ERROR"
      || strContainsSub upper "INCORRECT SYNTAX" then 400
  else 500

/-- `Error::status_code` of `src/error.rs` (HTTP status as a number). -/
def Error.status_code : Error → Nat
  | .NotFound _ => 404
  | .BadRequest _ => 400
  | .Unauthorized _ => 401
  | .Forbidden _ => 403
  | .Conflict _ => 409
  | .Sql msg => sql_error_to_status msg
  | .Pool _ => 503
  | .Internal _ => 500
  | .SingleObjectExpected _ => 406

/-- `Error::code` of `src/error.rs` (stable PGRST code). -/
def Error.code : Error → String
  | .NotFound _ => "PGRST116"
  | .BadRequest _ => "PGRST100"
  | .Unauthorized _ => "PGRST301"
  | .Forbidden _ => "PGRST302"
  | .Conflict _ => "PGRST209"
  | .Sql _ => "PGRST200"
  | .Pool _ => "PGRST503"
  | .Internal _ => "PGRST500"
  | .SingleObjectExpected _ => "PGRST116"

/-- The `Display` rendering of `Error` (the `thiserror` format strings). -/
def Error.message : Error → String
  | .NotFound m => "Not found: " ++ m
  | .BadRequest m => "Bad request: " ++ m
  | .Unauthorized m => "Unauthorized: " ++ m
  | .Forbidden m => "Forbidden: " ++ m
  | .Conflict m => "Conflict: " ++ m
  | .Sql m => "SQL error: " ++ m
  | .Pool m => "Pool error: " ++ m
  | .Internal m => "Internal error: " ++ m
  | .SingleObjectExpected n => "Single object expected but got " ++ toString n ++ " rows"

/-- The `ApiError` body of `src/error.rs`. -/
structure ApiError where
  code : String
  message : String
  details : Option String
  hint : Option String
deriving DecidableEq

/-- `Error::to_api_error` of `src/error.rs`. -/
def Error.to_api_error (e : Error) : ApiError :=
  { code := e.code
    message := e.message
    details := match e with
      | .Sql msg => some msg
      | _ => none
    hint := none }

/- ── Filter model and parser (src/filters.rs) ── -/

/-- `FilterOp` of `src/filters.rs`. -/
inductive FilterOp where
  | Eq | Gt | Gte | Lt | Lte | Neq | Like | Ilike | In | Is | Fts
deriving DecidableEq

/-- `FilterValue` of `src/filters.rs`. -/
inductive FilterValue where
  | single (s : String)
  | list (items : List String)
deriving DecidableEq

/-- `Filter` of `src/filters.rs`. -/
structure Filter where
  column : String
  operator : FilterOp
  value : FilterValue
  negated : Bool
deriving DecidableEq

/-- `FilterNode` of `src/filters.rs`. -/
inductive FilterNode where
  | condition (f : Filter)
  | group_and (ns : List FilterNode)
  | group_or (ns : List FilterNode)

/-- Strip one layer of outer parentheses, as in `parse_list`. -/
def stripParens (l : List Char) : List Char :=
  if l.head? = some '(' ∧ l.getLast? = some ')' then (l.drop 1).dropLast else l

/-- `parse_list` of `src/filters.rs`: split the parenthesized list on
commas, trim the items, and drop empty items. -/
def parse_list (s : String) : Except Error (List String) :=
  let t := strTrim s
  let inner := stripParens t.data
  .ok (((splitCharL ',' inner).map (fun v => trimL v)).filter
        (fun v => !v.isEmpty) |>.map (fun l => (⟨l⟩ : String)))

/-- Rust `value.replace('*', "%")` used by the like/ilike arms. -/
def starToPercent (s : String) : String :=
  ⟨s.data.map (fun c => if c = '*' then '%' else c)⟩

/-- `parse_filter` of `src/filters.rs`: strip an optional `not.`
prefix, then match the operator prefix in source order. -/
def parse_filter (column : String) (expr : String) : Except Error Filter :=
  let st := match stripPre "not." expr with
    | some stripped => (true, stripped)
    | none => (false, expr)
  let negated := st.1
  let rest := st.2
  match stripPre "eq." rest with
  | some value => .ok ⟨column, .Eq, .single value, negated⟩
  | none =>
  match stripPre "neq." rest with
  | some value => .ok ⟨column, .Neq, .single value, negated⟩
  | none =>
  match stripPre "gt." rest with
  | some value => .ok ⟨column, .Gt, .single value, negated⟩
  | none =>
  match stripPre "gte." rest with
  | some value => .ok ⟨column, .Gte, .single value, negated⟩
  | none =>
  match stripPre "lt." rest with
  | some value => .ok ⟨column, .Lt, .single value, negated⟩
  | none =>
  match stripPre "lte." rest with
  | some value => .ok ⟨column, .Lte, .single value, negated⟩
  | none =>
  match stripPre "like." rest with
  | some value => .ok ⟨column, .Like, .single (starToPercent value), negated⟩
  | none =>
  match stripPre "ilike." rest with
  | some value => .ok ⟨column, .Ilike, .single (starToPercent value), negated⟩
  | none =>
  match stripPre "in." rest with
  | some value =>
    match parse_list value with
    | .ok items => .ok ⟨column, .In, .list items, negated⟩
    | .error e => .error e
  | none =>
  match stripPre "is." rest with
  | some value => .ok ⟨column, .Is, .single value, negated⟩
  | none =>
  match stripPre "fts." rest with
  | some value => .ok ⟨column, .Fts, .single value, negated⟩
  | none => .error (.BadRequest ("Unknown filter expression: " ++ expr))

/- ── Ordering (src/query.rs, parse_order) ── -/

/-- `OrderDir` of `src/query.rs`. -/
inductive OrderDir where
  | Asc | Desc
deriving DecidableEq

/-- `NullsOrder` of `src/query.rs`. -/
inductive NullsOrder where
  | First | Last
deriving DecidableEq

/-- `OrderSpec` of `src/query.rs`. -/
structure OrderSpec where
  column : String
  direction : OrderDir
  nulls : Option NullsOrder
deriving DecidableEq

/-- One iteration of the `parse_order` loop of `src/query.rs`: trim
the comma-separated part, skip it when empty, split on dots; a second
segment other than `desc` (case-insensitive) is ascending, a third
segment other than `nullsfirst`/`nullslast` yields no nulls order. -/
def parseOrderPart (part : String) : Option OrderSpec :=
  let p := strTrim part
  if p.data.isEmpty then none
  else
    match splitChar '.' p with
    | [] => none
    | column :: restSegs =>
      let direction := match restSegs with
        | [] => OrderDir.Asc
        | d :: _ => if lowerStr d = "desc" then OrderDir.Desc else OrderDir.Asc
      let nulls := match restSegs with
        | _ :: n :: _ =>
          if lowerStr n = "nullsfirst" then some NullsOrder.First
          else if lowerStr n = "nullslast" then some NullsOrder.Last
          else none
        | _ => none
      some ⟨column, direction, nulls⟩

/-- `parse_order` of `src/query.rs`. -/
def parse_order (order_str : String) : Except Error (List OrderSpec) :=
  .ok ((splitChar ',' order_str).filterMap parseOrderPart)

/- ── Select model and parser (src/select.rs) ── -/

mutual

/-- `SelectNode` of `src/select.rs`. -/
inductive SelectNode where
  | star
  | column (name : String)
  | embed (e : EmbedSelect)

/-- `EmbedSelect` of `src/select.rs`. -/
inductive EmbedSelect where
  | mk (name : String) (fk_hint : Option String) (columns : List SelectNode)

end

/-- Embed name accessor. -/
def EmbedSelect.name : EmbedSelect → String
  | .mk n _ _ => n

/-- Embed FK-hint accessor. -/
def EmbedSelect.fk_hint : EmbedSelect → Option String
  | .mk _ h _ => h

/-- Embed sub-select accessor. -/
def EmbedSelect.columns : EmbedSelect → List SelectNode
  | .mk _ _ cs => cs

/-- `split_top_level` of `src/select.rs`: split on commas outside
parentheses; a trailing empty segment is dropped. -/
def split_top_level (s : String) : List String :=
  let st := s.data.foldl
    (fun (st : List (List Char) × List Char × Int) ch =>
      let parts := st.1
      let current := st.2.1
      let depth := st.2.2
      if ch = '(' then (parts, current ++ [ch], depth + 1)
      else if ch = ')' then (parts, current ++ [ch], depth - 1)
      else if ch = ',' ∧ depth = 0 then (parts ++ [current], [], depth)
      else (parts, current ++ [ch], depth))
    ([], [], 0)
  (if st.2.1.isEmpty then st.1 else st.1 ++ [st.2.1]).map (fun l => (⟨l⟩ : String))

mutual

/-- `parse_select` of `src/select.rs`, with an explicit recursion-depth
fuel (the Rust recursion is bounded by the input length; callers pass
a fuel larger than the input length so the fuel arm is unreachable). -/
def parse_select_core : Nat → String → Except Error (List SelectNode)
  | 0, _ => .error (.Internal "select nesting fuel exhausted")
  | Nat.succ fuel, input =>
    let inp := strTrim input
    if inp.data.isEmpty then .ok [.star]
    else
      (((split_top_level inp).map strTrim).filter
        (fun t => !t.data.isEmpty)).mapM (parse_select_token fuel)

/-- `parse_select_token` of `src/select.rs`. -/
def parse_select_token : Nat → String → Except Error SelectNode
  | 0, _ => .error (.Internal "select nesting fuel exhausted")
  | Nat.succ fuel, token =>
    if token = "*" then .ok .star
    else
      let d := token.data
      match d.findIdx? (fun c => c = '(') with
      | some paren_start =>
        if d.getLast? ≠ some ')' then
          .error (.BadRequest ("Unmatched parenthesis in select: " ++ token))
        else
          let pre := d.take paren_start
          let inner := (d.drop (paren_start + 1)).dropLast
          let nh : String × Option String :=
            match pre.findIdx? (fun c => c = '!') with
            | some bang_pos => (⟨pre.take bang_pos⟩, some (⟨pre.drop (bang_pos + 1)⟩ : String))
            | none => (⟨pre⟩, none)
          match parse_select_core fuel ⟨inner⟩ with
          | .ok columns => .ok (.embed (.mk nh.1 nh.2 columns))
          | .error e => .error e
      | none =>
        let col : String :=
          match d.findIdx? (fun c => c = ':') with
          | some colon_pos => ⟨d.drop (colon_pos + 1)⟩
          | none => token
        .ok (.column col)

end

/-- `parse_select` entry point: fuel from the input length. -/
def parse_select (input : String) : Except Error (List SelectNode) :=
  parse_select_core (input.data.length + 1) input

/-- `select_columns` of `src/select.rs`. -/
def select_columns (nodes : List SelectNode) : List String :=
  nodes.filterMap (fun n => match n with
    | .column name => some name
    | _ => none)

/-- `has_star` of `src/select.rs`. -/
def has_star (nodes : List SelectNode) : Bool :=
  nodes.any (fun n => match n with
    | .star => true
    | _ => false)

/-- `select_embeds` of `src/select.rs`. -/
def select_embeds (nodes : List SelectNode) : List EmbedSelect :=
  nodes.filterMap (fun n => match n with
    | .embed e => some e
    | _ => none)

/- ── Schema model (src/schema.rs) ── -/

/-- `ColumnInfo` of `src/schema.rs` (catalog fields defaulted). -/
structure ColumnInfo where
  name : String
  data_type : String := "int"
  is_nullable : Bool := true
  ordinal_position : Int := 0
  is_identity : Bool := false
  has_default : Bool := false
  is_computed : Bool := false
deriving DecidableEq

/-- `ForeignKey` of `src/schema.rs`. -/
structure ForeignKey where
  constraint_name : String
  column_name : String
  ref_schema : String
  ref_table : String
  ref_column : String
deriving DecidableEq

/-- `TableInfo` of `src/schema.rs`. -/
structure TableInfo where
  name : String
  schema : String
  columns : List ColumnInfo
  primary_key : List String := []
  foreign_keys : List ForeignKey := []
  unique_constraints : List (List String) := []
  is_view : Bool := false
  change_tracking_enabled : Bool := false
deriving DecidableEq

/-- `TableInfo::full_name`. -/
def TableInfo.full_name (t : TableInfo) : String :=
  "[" ++ t.schema ++ "].[" ++ t.name ++ "]"

/-- `TableInfo::column` (case-insensitive lookup). -/
def TableInfo.column (t : TableInfo) (name : String) : Option ColumnInfo :=
  t.columns.find? (fun c => eqIgnoreAsciiCase c.name name)

/-- `EmbedJoinType` of `src/schema.rs`. -/
inductive EmbedJoinType where
  | ManyToOne | OneToMany
deriving DecidableEq

/-- `EmbedInfo` of `src/schema.rs`. -/
structure EmbedInfo where
  target_schema : String
  target_table : String
  join_type : EmbedJoinType
  source_column : String
  target_column : String
deriving DecidableEq

/-- `SchemaCache` of `src/schema.rs`; the two hash maps are modelled
as association lists in catalog order. -/
structure SchemaCache where
  tables : List ((String × String) × TableInfo)
  reverse_fks : List ((String × String) × List (String × String × ForeignKey))

/-- `SchemaCache::get_table`: exact match first, then a
case-insensitive search. -/
def SchemaCache.get_table (sc : SchemaCache) (schema table : String) : Option TableInfo :=
  match sc.tables.find? (fun kv =>
      decide (kv.1.1 = schema) && decide (kv.1.2 = table)) with
  | some kv => some kv.2
  | none =>
    sc.tables.findSome? (fun kv =>
      if eqIgnoreAsciiCase kv.1.1 schema && eqIgnoreAsciiCase kv.1.2 table
      then some kv.2 else none)

/-- `SchemaCache::referencing_tables` (reverse-FK lookup by lowercased
key). -/
def SchemaCache.referencing_tables (sc : SchemaCache) (schema table : String) :
    List (String × String × ForeignKey) :=
  match sc.reverse_fks.find? (fun kv =>
      decide (kv.1.1 = lowerStr schema) && decide (kv.1.2 = lowerStr table)) with
  | some kv => kv.2
  | none => []

/-- `SchemaCache::find_embed` of `src/schema.rs`: forward FKs first
(many-to-one), then reverse FKs (one-to-many), honoring the FK hint. -/
def SchemaCache.find_embed (sc : SchemaCache) (source_schema source_table : String)
    (embed_name : String) (hint_fk : Option String) : Option EmbedInfo :=
  match sc.get_table source_schema source_table with
  | none => none
  | some source =>
    match source.foreign_keys.findSome? (fun fk =>
        if eqIgnoreAsciiCase fk.ref_table embed_name then
          match hint_fk with
          | some hint =>
            if eqIgnoreAsciiCase fk.constraint_name hint then
              some (EmbedInfo.mk fk.ref_schema fk.ref_table .ManyToOne
                fk.column_name fk.ref_column)
            else none
          | none =>
            some (EmbedInfo.mk fk.ref_schema fk.ref_table .ManyToOne
              fk.column_name fk.ref_column)
        else none) with
    | some info => some info
    | none =>
      (sc.referencing_tables source_schema source_table).findSome?
        (fun rt =>
          let ref_schema := rt.1
          let ref_table := rt.2.1
          let fk := rt.2.2
          if eqIgnoreAsciiCase ref_table embed_name then
            match hint_fk with
            | some hint =>
              if eqIgnoreAsciiCase fk.constraint_name hint then
                some (EmbedInfo.mk ref_schema ref_table .OneToMany
                  fk.ref_column fk.column_name)
              else none
            | none =>
              some (EmbedInfo.mk ref_schema ref_table .OneToMany
                fk.ref_column fk.column_name)
          else none)

/- ── SQL generator (src/query.rs) ── -/

/-- `escape_ident` of `src/query.rs`: double every closing bracket
(the Rust `replace(']', "]]")`). -/
def escape_ident (name : String) : String :=
  ⟨(name.data.map (fun c => if c = ']' then [']', ']'] else [c])).flatten⟩

/-- `filter_value_single` of `src/query.rs`. -/
def filter_value_single : FilterValue → Except Error String
  | .single s => .ok s
  | .list items =>
    match items with
    | [x] => .ok x
    | _ => .error (.BadRequest "Expected single value, got list")

/-- Parameter pushes of the `In` arm of `build_single_filter`: push
each list item and record its placeholder. -/
def pushInParams (items : List String) (params : List String) (offset : Nat) :
    List String × List String :=
  match items with
  | [] => ([], params)
  | it :: rest =>
    let params2 := params ++ [it]
    let ph := "@P" ++ toString (params2.length + offset)
    let r := pushInParams rest params2 offset
    (ph :: r.1, r.2)

/-- Shared shape of the simple comparison arms of
`build_single_filter` (`eq`, `neq`, `gt`, `gte`, `lt`, `lte`, `like`,
`ilike` differ only in the operator text). -/
def simpleCmp (opSql : String) (f : Filter) (params : List String) (offset : Nat) :
    Except Error (String × List String) :=
  let col := "[" ++ escape_ident f.column ++ "]"
  match filter_value_single f.value with
  | .error e => .error e
  | .ok v =>
    let params2 := params ++ [v]
    let idx := params2.length + offset
    .ok ((if f.negated then "NOT " else "") ++ "(" ++ col ++ opSql ++ "@P"
          ++ toString idx ++ ")", params2)

/-- `build_single_filter` of `src/query.rs`. -/
def build_single_filter (f : Filter) (params : List String) (offset : Nat) :
    Except Error (String × List String) :=
  let col := "[" ++ escape_ident f.column ++ "]"
  let notPre := if f.negated then "NOT " else ""
  match f.operator with
  | .Eq => simpleCmp " = " f params offset
  | .Neq => simpleCmp " <> " f params offset
  | .Gt => simpleCmp " > " f params offset
  | .Gte => simpleCmp " >= " f params offset
  | .Lt => simpleCmp " < " f params offset
  | .Lte => simpleCmp " <= " f params offset
  | .Like => simpleCmp " LIKE " f params offset
  | .Ilike => simpleCmp " LIKE " f params offset
  | .In =>
    match f.value with
    | .list items =>
      let r := pushInParams items params offset
      .ok (notPre ++ "(" ++ col ++ " IN (" ++ joinSep ", " r.1
            ++ "))", r.2)
    | _ => .error (.BadRequest "IN requires a list value")
  | .Is =>
    match filter_value_single f.value with
    | .error e => .error e
    | .ok val =>
      if lowerStr val = "null" then
        .ok (if f.negated then (col ++ " IS NOT NULL", params)
             else (col ++ " IS NULL", params))
      else if lowerStr val = "true" then
        .ok (if f.negated then (col ++ " <> 1", params)
             else (col ++ " = 1", params))
      else if lowerStr val = "false" then
        .ok (if f.negated then (col ++ " <> 0", params)
             else (col ++ " = 0", params))
      else
        .error (.BadRequest ("IS only supports null, true, false; got: " ++ val))
  | .Fts =>
    match filter_value_single f.value with
    | .error e => .error e
    | .ok v =>
      let params2 := params ++ [v]
      let idx := params2.length + offset
      .ok (notPre ++ "CONTAINS(" ++ col ++ ", @P" ++ toString idx ++ ")", params2)

mutual

/-- `build_filter_node` of `src/query.rs`. -/
def build_filter_node : FilterNode → List String → Nat →
    Except Error (String × List String)
  | .condition f, params, offset => build_single_filter f params offset
  | .group_and ns, params, offset =>
    match build_node_parts ns params offset with
    | .error e => .error e
    | .ok r =>
      let non_empty := r.1.filter (fun p => !p.data.isEmpty)
      if non_empty.isEmpty then .ok ("", r.2)
      else .ok ("(" ++ joinSep " AND " non_empty ++ ")", r.2)
  | .group_or ns, params, offset =>
    match build_node_parts ns params offset with
    | .error e => .error e
    | .ok r =>
      let non_empty := r.1.filter (fun p => !p.data.isEmpty)
      if non_empty.isEmpty then .ok ("", r.2)
      else .ok ("(" ++ joinSep " OR " non_empty ++ ")", r.2)

/-- The child iteration shared by the `And`/`Or` arms of
`build_filter_node` and by `build_where_clause_with_offset`: build
every child clause in order, threading the parameter vector. -/
def build_node_parts : List FilterNode → List String → Nat →
    Except Error (List String × List String)
  | [], params, _ => .ok ([], params)
  | n :: rest, params, offset =>
    match build_filter_node n params offset with
    | .error e => .error e
    | .ok r =>
      match build_node_parts rest r.2 offset with
      | .error e => .error e
      | .ok rr => .ok (r.1 :: rr.1, rr.2)

end

/-- `build_where_clause_with_offset` of `src/query.rs`: join the
non-empty child clauses with `AND`. -/
def build_where_clause_with_offset (filters : List FilterNode)
    (params : List String) (offset : Nat) : Except Error (String × List String) :=
  match build_node_parts filters params offset with
  | .error e => .error e
  | .ok r => .ok (joinSep " AND " (r.1.filter (fun p => !p.data.isEmpty)), r.2)

/-- `build_where_clause` of `src/query.rs`. -/
def build_where_clause (filters : List FilterNode) (params : List String) :
    Except Error (String × List String) :=
  build_where_clause_with_offset filters params 0

/-- `build_column_list` of `src/query.rs`. -/
def build_column_list (table : TableInfo) (nodes : List SelectNode) : String :=
  if nodes.isEmpty || has_star nodes then
    let explicit_cols := select_columns nodes
    if explicit_cols.isEmpty then
      joinSep ", "
        (table.columns.map (fun c => "[" ++ escape_ident c.name ++ "]"))
    else
      let cols := table.columns.map (fun c => "[" ++ escape_ident c.name ++ "]")
      let extra := (explicit_cols.filter (fun col =>
          !(table.columns.any (fun c => eqIgnoreAsciiCase c.name col)))).map
        (fun col => "[" ++ escape_ident col ++ "]")
      joinSep ", " (cols ++ extra)
  else
    let cols := select_columns nodes
    if cols.isEmpty then "*"
    else
      joinSep ", " (cols.map (fun c => "[" ++ escape_ident c ++ "]"))

/-- `BuiltQuery` of `src/query.rs`. -/
structure BuiltQuery where
  sql : String
  params : List String
deriving DecidableEq

/-- The ORDER BY fragment rendering of `build_select`. -/
def orderPartSql (o : OrderSpec) : String :=
  let dir := match o.direction with
    | .Asc => "ASC"
    | .Desc => "DESC"
  let nulls := match o.nulls with
    | some .First =>
      "CASE WHEN [" ++ escape_ident o.column ++ "] IS NULL THEN 0 ELSE 1 END, "
    | some .Last =>
      "CASE WHEN [" ++ escape_ident o.column ++ "] IS NULL THEN 1 ELSE 0 END, "
    | none => ""
  nulls ++ "[" ++ escape_ident o.column ++ "] " ++ dir

/-- `build_select` of `src/query.rs`. -/
def build_select (table : TableInfo) (select_nodes : List SelectNode)
    (filters : List FilterNode) (order : List OrderSpec)
    (limit offset : Option Int) (count_only : Bool) :
    Except Error BuiltQuery :=
  let columns := if count_only then "COUNT(*) AS [count]"
    else build_column_list table select_nodes
  let sql0 := "SELECT " ++ columns ++ " FROM " ++ table.full_name
  match (if filters.isEmpty then Except.ok ("", ([] : List String))
         else build_where_clause filters []) with
  | .error e => .error e
  | .ok wr =>
    let params := wr.2
    let sql1 := if !filters.isEmpty ∧ !wr.1.data.isEmpty
      then sql0 ++ " WHERE " ++ wr.1 else sql0
    if count_only then .ok ⟨sql1, params⟩
    else
      let sql2 :=
        if !order.isEmpty then
          sql1 ++ " ORDER BY " ++ joinSep ", " (order.map orderPartSql)
        else if limit.isSome || offset.isSome then
          if !table.primary_key.isEmpty then
            sql1 ++ " ORDER BY " ++ joinSep ", "
              (table.primary_key.map (fun c => "[" ++ escape_ident c ++ "] ASC"))
          else sql1 ++ " ORDER BY (SELECT NULL)"
        else sql1
      let sql3 := match offset, limit with
        | some off, some lim =>
          sql2 ++ " OFFSET " ++ toString off ++ " ROWS FETCH NEXT "
            ++ toString lim ++ " ROWS ONLY"
        | some off, none => sql2 ++ " OFFSET " ++ toString off ++ " ROWS"
        | none, some lim =>
          sql2 ++ " OFFSET 0 ROWS FETCH NEXT " ++ toString lim ++ " ROWS ONLY"
        | none, none => sql2
      .ok ⟨sql3, params⟩

/- ── JSON values and rows (serde_json model) ── -/

/-- Model of `serde_json::Value`; numbers are restricted to integers
(the join-key and claim values exercised by the source are integral
or strings). -/
inductive Json where
  | null
  | bool (b : Bool)
  | num (n : Int)
  | str (s : String)
  | arr (items : List Json)
  | obj (fields : List (String × Json))

mutual

/-- Model of `serde_json` `to_string` on values; string content is not
escaped (the source only applies it to non-string scalars). -/
def Json.render : Json → String
  | .null => "null"
  | .bool b => if b then "true" else "false"
  | .num n => toString n
  | .str s => "\"" ++ s ++ "\""
  | .arr items => "[" ++ joinSep "," (Json.renderList items) ++ "]"
  | .obj fields => "\x7b" ++ joinSep "," (Json.renderObj fields) ++ "\x7d"

/-- Render each array element. -/
def Json.renderList : List Json → List String
  | [] => []
  | j :: rest => Json.render j :: Json.renderList rest

/-- Render each object field. -/
def Json.renderObj : List (String × Json) → List String
  | [] => []
  | f :: rest => ("\"" ++ f.1 ++ "\":" ++ Json.render f.2) :: Json.renderObj rest

end

/-- A result row: the `serde_json::Map<String, Value>` produced by
`row_to_json`, modelled as an association list. -/
abbrev Row := List (String × Json)

/-- Map lookup. -/
def rowGet (row : Row) (k : String) : Option Json :=
  (row.find? (fun p => decide (p.1 = k))).map (fun p => p.2)

/-- Map insert: replace the value under an existing key, else append. -/
def rowInsert (row : Row) (k : String) (v : Json) : Row :=
  if row.any (fun p => decide (p.1 = k)) then
    row.map (fun p => if p.1 = k then (k, v) else p)
  else row ++ [(k, v)]

/- ── Embed engine (src/handlers.rs, handle_embeds) ── -/

/-- The per-row step of the source-value collection in
`handle_embeds`: null join keys are dropped, strings pass as is,
other values are rendered. -/
def jsonSourceStr : Json → Option String
  | .null => none
  | .str s => some s
  | other => some other.render

/-- The deduplicated join-key set collected from the parent rows
(`HashSet` modelled as `dedup`). -/
def collect_source_values (rows : List Row) (source_column : String) : List String :=
  (rows.filterMap (fun row => (rowGet row source_column).bind jsonSourceStr)).dedup

/-- `build_embed_column_list` of `src/handlers.rs`. -/
def build_embed_column_list (table : TableInfo) (nodes : List SelectNode) : String :=
  if nodes.isEmpty || has_star nodes then
    joinSep ", "
      (table.columns.map (fun c => "[" ++ escape_ident c.name ++ "]"))
  else
    let cols := select_columns nodes
    if cols.isEmpty then "*"
    else
      joinSep ", " (cols.map (fun c => "[" ++ escape_ident c ++ "]"))

/-- The embed batch query text built in `handle_embeds` for `n` source
values (placeholders `@P1..@Pn`). -/
def embed_query_sql (target : TableInfo) (embed_columns target_column : String)
    (n : Nat) : String :=
  "SET NOCOUNT ON;\nSELECT " ++ embed_columns ++ " FROM " ++ target.full_name
    ++ " WHERE [" ++ escape_ident target_column ++ "] IN ("
    ++ joinSep ", " ((List.range n).map (fun i => "@P" ++ toString (i + 1)))
    ++ ")"

/-- The grouping key of an embed row in `handle_embeds` (null keys are
skipped, strings pass as is, other values are rendered). -/
def jsonGroupKey : Json → Option String
  | .str s => some s
  | .null => none
  | other => some other.render

/-- The embed rows grouped under one join-key value, in fetch order
(models the `grouped` hash map of `handle_embeds`). -/
def embeds_for (embed_rows : List Row) (target_column key : String) : List Json :=
  embed_rows.filterMap (fun erow =>
    match rowGet erow target_column with
    | some kv =>
      match jsonGroupKey kv with
      | some k => if k = key then some (.obj erow) else none
      | none => none
    | none => none)

/-- The parent-row join-key rendering used in the attach loop of
`handle_embeds` (missing and null keys become the empty string). -/
def row_source_val (row : Row) (source_column : String) : String :=
  match rowGet row source_column with
  | some (.str s) => s
  | some .null => ""
  | some other => other.render
  | none => ""

/-- The attach loop of `handle_embeds` for a fetched embed result. -/
def attach_embed_rows (join_type : EmbedJoinType)
    (embed_name source_column target_column : String)
    (rows : List Row) (embed_rows : List Row) : List Row :=
  rows.map (fun row =>
    let embedded := embeds_for embed_rows target_column
      (row_source_val row source_column)
    match join_type with
    | .ManyToOne =>
      match embedded.head? with
      | some first => rowInsert row embed_name first
      | none => rowInsert row embed_name .null
    | .OneToMany => rowInsert row embed_name (.arr embedded))

/-- One `handle_embeds` iteration after the join has been resolved,
with the batch fetch abstracted as the `embed_rows` argument: when the
deduplicated join-key set is empty every parent receives an empty
array (the source assigns `JsonValue::Array(Vec::new())` regardless
of the join type); otherwise the fetched rows are grouped and
attached. -/
def handle_embed_attach (join_type : EmbedJoinType)
    (embed_name source_column target_column : String)
    (rows : List Row) (embed_rows : List Row) : List Row :=
  let source_values := collect_source_values rows source_column
  if source_values.isEmpty then
    rows.map (fun row => rowInsert row embed_name (.arr []))
  else
    attach_embed_rows join_type embed_name source_column target_column rows embed_rows

/- ── Claim mapping (src/auth.rs) ── -/

/-- The claim fields of `Claims` used by role resolution. -/
structure Claims where
  role : Option String := none
  sub : Option String := none
  extra : List (String × Json) := []

/-- The configuration fields of `AppConfig` used by authentication
and role resolution. -/
structure AppConfig where
  role_claim : String := "role"
  role_map : List (String × String) := []
  anon_role : Option String := none
  jwt_secret : Option String := none
  default_schema : String := "dbo"

/-- Role-table lookup (`HashMap::get` on the role map). -/
def roleMapGet (m : List (String × String)) (k : String) : Option String :=
  (m.find? (fun p => decide (p.1 = k))).map (fun p => p.2)

/-- `navigate_claim` of `src/auth.rs`: descend through nested objects
along the dot-separated path. -/
def navigate_claim (value : Json) (path : String) : Option Json :=
  go (splitChar '.' path) value
where
  /-- Walk the path parts. -/
  go : List String → Json → Option Json
  | [], current => some current
  | part :: rest, current =>
    match current with
    | .obj fields =>
      match rowGet fields part with
      | some nxt => go rest nxt
      | none => none
    | _ => none

/-- The combined claim object built at the top of `resolve_role`
(`role` and `sub` inserted first, then every extra claim). -/
def claims_root (claims : Claims) : Json :=
  let m0 : List (String × Json) := []
  let m1 := match claims.role with
    | some r => rowInsert m0 "role" (.str r)
    | none => m0
  let m2 := match claims.sub with
    | some s => rowInsert m1 "sub" (.str s)
    | none => m1
  .obj (claims.extra.foldl (fun acc kv => rowInsert acc kv.1 kv.2) m2)

/-- The `for item in arr` loop of the array arm of `resolve_role`:
the first element with a role-table entry yields its mapping; with an
empty role table the first string is returned; non-strings are
skipped. -/
def resolveArrLoop : List Json → AppConfig → Option String
  | [], _ => none
  | item :: rest, config =>
    match item with
    | .str s =>
      match roleMapGet config.role_map s with
      | some mapped => some mapped
      | none =>
        if config.role_map.isEmpty then some s
        else resolveArrLoop rest config
    | _ => resolveArrLoop rest config

/-- `resolve_role` of `src/auth.rs`. -/
def resolve_role (claims : Claims) (config : AppConfig) : Option String :=
  match navigate_claim (claims_root claims) config.role_claim with
  | none => none
  | some value =>
    match value with
    | .arr items => resolveArrLoop items config
    | .str s =>
      match roleMapGet config.role_map s with
      | some mapped => some mapped
      | none => some s
    | other => some other.render

/-- The string view of a JSON value (the `Value::String` pattern of
the array arm). -/
def jsonAsStr : Json → Option String
  | .str s => some s
  | _ => none

/-- `map_to_db_user` of `src/auth.rs`. -/
def map_to_db_user (claims : Option Claims) (config : AppConfig) : Option String :=
  match claims with
  | some c =>
    match resolve_role c config with
    | some role => some role
    | none => config.anon_role
  | none => config.anon_role

/-- `authenticate_hs256` of `src/auth.rs`; the `jsonwebtoken::decode`
library call is abstracted as the `decodeJwt` argument. -/
def authenticate_hs256 (decodeJwt : String → Except String Claims)
    (auth_header : Option String) (config : AppConfig) :
    Except Error (Option Claims) :=
  match config.jwt_secret with
  | none => .ok none
  | some _ =>
    match auth_header with
    | some header =>
      match stripPre "Bearer " header with
      | some token =>
        match decodeJwt (strTrim token) with
        | .ok claims => .ok (some claims)
        | .error e => .error (.Unauthorized ("Invalid JWT: " ++ e))
      | none => .error (.Unauthorized "Authorization header must use Bearer scheme")
    | none =>
      match config.anon_role with
      | some _ => .ok none
      | none => .error (.Unauthorized "Authentication required")

/- ── Change-feed engine (src/realtime.rs) ── -/

/-- `ChangeOp` of `src/realtime.rs`. -/
inductive ChangeOp where
  | Insert | Update | Delete
deriving DecidableEq

/-- The event-kind mapping inside `subscribe` (`src/realtime.rs`):
match on the upper-cased string, defaulting to `Insert`. -/
def parse_event_kind (e : String) : ChangeOp :=
  if upperStr e = "INSERT" then .Insert
  else if upperStr e = "UPDATE" then .Update
  else if upperStr e = "DELETE" then .Delete
  else .Insert

/-- The event set of a subscription (`subscribe` in
`src/realtime.rs`): map the given strings, or default to all three
kinds; the `HashSet` is modelled as a list with membership
semantics. -/
def event_set (events : Option (List String)) : List ChangeOp :=
  match events with
  | some evts => evts.map parse_event_kind
  | none => [.Insert, .Update, .Delete]

/-- The subscription state of `src/realtime.rs` (client channel
omitted). -/
structure Subscription where
  id : String
  table_key : String
  filter : Option (List Filter)
  events : List ChangeOp

/-- The change record built in `poll_once`: for deletes only the
`__ct_`-prefixed primary-key columns (with the prefix stripped), for
inserts and updates every column that is not a change-tracking
internal column. -/
def build_record (op : ChangeOp) (row_json : Row) : Row :=
  if op = .Delete then
    row_json.filterMap (fun kv =>
      match stripPre "__ct_" kv.1 with
      | some pk_name => some (pk_name, kv.2)
      | none => none)
  else
    row_json.filter (fun kv =>
      !strStartsWith kv.1 "SYS_CHANGE_" && !strStartsWith kv.1 "__ct_")

/-- The per-subscription filter pass of `poll_once`: the event set
must contain the operation, and every filter whose column is present
in the record must hold of the value (a filter on an absent column is
skipped); `fm` abstracts `filter_matches`, whose comparison arms use
`f64` parsing. -/
def sub_matches (fm : Filter → Json → Bool) (sub : Subscription)
    (op : ChangeOp) (record : Row) : Bool :=
  decide (op ∈ sub.events) &&
  (match sub.filter with
   | none => true
   | some filter_list =>
     filter_list.all (fun f =>
       match rowGet record f.column with
       | some val => fm f val
       | none => true))

/-- A delivered change message (`ServerMessage::Change`). -/
structure ChangeMsg where
  type_ : String
  id : String
  table : String
  record : Row

/-- The operation label used in delivered messages. -/
def op_string : ChangeOp → String
  | .Insert => "INSERT"
  | .Update => "UPDATE"
  | .Delete => "DELETE"

/-- The fan-out loop of `poll_once` for one change record: every
subscription on the table that passes `sub_matches` receives a change
message. -/
def fan_out (fm : Filter → Json → Bool) (subs : List Subscription)
    (table_key : String) (op : ChangeOp) (record : Row) : List ChangeMsg :=
  subs.filterMap (fun sub =>
    if sub_matches fm sub op record then
      some ⟨op_string op, sub.id, table_key, record⟩
    else none)

/- ── Identifier scanning over generated SQL ── -/

/-- A string with no bracket characters (such column names are left
unchanged by `escape_ident`). -/
def bracketFree (s : String) : Bool :=
  s.data.all (fun c => (c != '[') && (c != ']'))

/-- Bracket scanner state machine: collect the content of every
`[...]` group of a character list. -/
def scanAux : List Char → Option (List Char) → List (List Char)
  | [], _ => []
  | c :: rest, none =>
    if c = '[' then scanAux rest (some []) else scanAux rest none
  | c :: rest, some acc =>
    if c = ']' then acc :: scanAux rest none
    else scanAux rest (some (acc ++ [c]))

/-- The bracket-quoted identifiers occurring in a SQL string. -/
def scanIdents (s : String) : List (List Char) := scanAux s.data none

/-- A fragment of generated SQL: literal text or one bracket-quoted
identifier. -/
inductive Frag where
  | txt (t : List Char)
  | idn (n : List Char)

/-- Fragment rendering. -/
def Frag.render : Frag → List Char
  | .txt t => t
  | .idn n => '[' :: (n ++ [']'])

/-- Render a fragment list. -/
def renderFrags (fs : List Frag) : List Char := (fs.map Frag.render).flatten

/-- Scanner-compatible fragment: text holds no opening bracket, an
identifier holds no closing bracket. -/
def Frag.okay : Frag → Prop
  | .txt t => '[' ∉ t
  | .idn n => ']' ∉ n

/-- The identifiers of a fragment list. -/
def fragIdents (fs : List Frag) : List (List Char) :=
  fs.filterMap (fun f => match f with
    | .idn n => some n
    | .txt _ => none)

/-- A SQL string decomposable into scanner-compatible fragments whose
identifiers all come from `idents`. -/
def Rendered (s : String) (idents : List String) : Prop :=
  ∃ fs, s.data = renderFrags fs ∧ (∀ f ∈ fs, f.okay) ∧
    ∀ n ∈ fragIdents fs, ∃ c ∈ idents, n = c.data

/- ── Filter-tree measures for the generator invariant ── -/

/-- The number of ordinal parameters a single condition binds: one
per in-list element, none for `is` (whose operand is emitted as a
keyword predicate), one otherwise. -/
def filter_leaf_count (f : Filter) : Nat :=
  match f.operator with
  | .In =>
    match f.value with
    | .list items => items.length
    | .single _ => 0
  | .Is => 0
  | _ => 1

mutual

/-- Parameter count of a filter node. -/
def node_leaf_count : FilterNode → Nat
  | .condition f => filter_leaf_count f
  | .group_and ns => nodes_leaf_count ns
  | .group_or ns => nodes_leaf_count ns

/-- Parameter count of a filter-node list. -/
def nodes_leaf_count : List FilterNode → Nat
  | [] => 0
  | n :: rest => node_leaf_count n + nodes_leaf_count rest

end

mutual

/-- The column names occurring in a filter node. -/
def nodeColumns : FilterNode → List String
  | .condition f => [f.column]
  | .group_and ns => nodesColumns ns
  | .group_or ns => nodesColumns ns

/-- The column names occurring in a filter-node list. -/
def nodesColumns : List FilterNode → List String
  | [] => []
  | n :: rest => nodeColumns n ++ nodesColumns rest

end

/- ── Concrete catalog for the end-to-end scenarios ── -/

/-- The `orders` table of spec scenario 5: `customer_id` is a
single-column FK to `customers.id`. -/
def orders_table : TableInfo :=
  { name := "orders", schema := "dbo",
    columns := [{ name := "id" }, { name := "customer_id" }],
    primary_key := ["id"],
    foreign_keys := [⟨"fk_orders_customer", "customer_id", "dbo", "customers", "id"⟩] }

/-- The `customers` table of spec scenario 5. -/
def customers_table : TableInfo :=
  { name := "customers", schema := "dbo",
    columns := [{ name := "id" }, { name := "name" }],
    primary_key := ["id"] }

/-- The catalog holding the two tables and the reverse-FK index. -/
def demo_catalog : SchemaCache :=
  { tables := [(("dbo", "orders"), orders_table),
               (("dbo", "customers"), customers_table)],
    reverse_fks := [(("dbo", "customers"),
      [("dbo", "orders", ⟨"fk_orders_customer", "customer_id", "dbo", "customers", "id"⟩)])] }

/-- The filter tree of spec scenario 2:
`or=(age.gt.18,name.like.*a*)` after parsing. -/
def demo_or_tree : List FilterNode :=
  [.group_or [.condition ⟨"age", .Gt, .single "18", false⟩,
              .condition ⟨"name", .Like, .single "%a%", false⟩]]

/- ════════════════ Lemmas and theorems ════════════════ -/

/- ── Scanner lemmas ── -/

theorem scanAux_txt_append (t : List Char) (rest : List Char) (h : '[' ∉ t) :
    scanAux (t ++ rest) none = scanAux rest none := by
  induction t with
  | nil => rfl
  | cons c t' ih =>
    have hc : c ≠ '[' := fun hc => h (hc ▸ List.mem_cons_self c t')
    have ht' : '[' ∉ t' := fun hm => h (List.mem_cons_of_mem c hm)
    simpa [scanAux, if_neg hc] using ih ht'

theorem scanAux_idn_append (n : List Char) (rest : List Char) :
    ∀ acc, ']' ∉ n →
      scanAux (n ++ (']' :: rest)) (some acc) = (acc ++ n) :: scanAux rest none := by
  induction n with
  | nil => intro acc _; simp [scanAux]
  | cons c n' ih =>
    intro acc h
    have hc : c ≠ ']' := fun hc => h (hc ▸ List.mem_cons_self c n')
    have hn' : ']' ∉ n' := fun hm => h (List.mem_cons_of_mem c hm)
    simp only [List.cons_append, scanAux, if_neg hc]
    have hrec := ih (acc ++ [c]) hn'
    rw [List.append_assoc, List.singleton_append] at hrec
    exact hrec

theorem scan_render (fs : List Frag) (h : ∀ f ∈ fs, f.okay) :
    scanAux (renderFrags fs) none = fragIdents fs := by
  induction fs with
  | nil => rfl
  | cons f fs' ih =>
    have hf := h f (List.mem_cons_self f fs')
    have hfs' : ∀ g ∈ fs', g.okay := fun g hg => h g (List.mem_cons_of_mem f hg)
    cases f with
    | txt t =>
      have hr : renderFrags (Frag.txt t :: fs') = t ++ renderFrags fs' := by
        simp [renderFrags, Frag.render]
      rw [hr, scanAux_txt_append t _ hf, ih hfs']
      simp [fragIdents]
    | idn n =>
      have hr : renderFrags (Frag.idn n :: fs')
          = '[' :: (n ++ (']' :: renderFrags fs')) := by
        simp [renderFrags, Frag.render]
      rw [hr]
      simp only [scanAux, if_pos rfl]
      rw [scanAux_idn_append n _ [] hf, ih hfs']
      simp [fragIdents]

/- ── Rendered-string combinators ── -/

theorem Rendered.of_txt {I : List String} (s : String) (h : '[' ∉ s.data) :
    Rendered s I := by
  refine ⟨[.txt s.data], by simp [renderFrags, Frag.render], ?_, ?_⟩
  · intro f hf
    rw [List.mem_singleton] at hf
    subst hf
    exact h
  · intro n hn
    simp [fragIdents] at hn

theorem Rendered.append {I : List String} {a b : String}
    (ha : Rendered a I) (hb : Rendered b I) : Rendered (a ++ b) I := by
  obtain ⟨fsa, hda, hoa, hia⟩ := ha
  obtain ⟨fsb, hdb, hob, hib⟩ := hb
  refine ⟨fsa ++ fsb, ?_, ?_, ?_⟩
  · rw [String.data_append, hda, hdb]
    simp [renderFrags]
  · intro f hf
    rcases List.mem_append.mp hf with hf | hf
    · exact hoa f hf
    · exact hob f hf
  · intro n hn
    unfold fragIdents at hn
    rw [List.filterMap_append] at hn
    rcases List.mem_append.mp hn with hn | hn
    · exact hia n hn
    · exact hib n hn

theorem Rendered.mono {I J : List String} {s : String}
    (h : Rendered s I) (hIJ : ∀ c ∈ I, c ∈ J) : Rendered s J := by
  obtain ⟨fs, hd, ho, hi⟩ := h
  refine ⟨fs, hd, ho, fun n hn => ?_⟩
  obtain ⟨c, hc, hnc⟩ := hi n hn
  exact ⟨c, hIJ c hc, hnc⟩

theorem escapeFlatten (l : List Char)
    (hl : ∀ x ∈ l, ((x != '[') && (x != ']')) = true) :
    (l.map (fun ch => if ch = ']' then [']', ']'] else [ch])).flatten = l := by
  induction l with
  | nil => rfl
  | cons x xs ih =>
    have hx := hl x (List.mem_cons_self x xs)
    have hxr : x ≠ ']' := by
      intro hcontra
      subst hcontra
      simp at hx
    have hxs : ∀ y ∈ xs, ((y != '[') && (y != ']')) = true :=
      fun y hy => hl y (List.mem_cons_of_mem x hy)
    simp [if_neg hxr, ih hxs]

theorem escape_ident_bracketFree (c : String) (h : bracketFree c = true) :
    escape_ident c = c := by
  obtain ⟨l⟩ := c
  unfold bracketFree at h
  rw [List.all_eq_true] at h
  unfold escape_ident
  rw [escapeFlatten l h]

theorem bracketFree_no_lbracket {c : String} (h : bracketFree c = true) :
    '[' ∉ c.data := by
  unfold bracketFree at h
  rw [List.all_eq_true] at h
  intro hmem
  have := h '[' hmem
  simp at this

theorem bracketFree_no_rbracket {c : String} (h : bracketFree c = true) :
    ']' ∉ c.data := by
  unfold bracketFree at h
  rw [List.all_eq_true] at h
  intro hmem
  have := h ']' hmem
  simp at this

theorem Rendered.ident {I : List String} {c : String}
    (hc : bracketFree c = true) (hmem : c ∈ I) :
    Rendered ("[" ++ escape_ident c ++ "]") I := by
  rw [escape_ident_bracketFree c hc]
  refine ⟨[.idn c.data], ?_, ?_, ?_⟩
  · rw [String.data_append, String.data_append]
    simp [renderFrags, Frag.render]
  · intro f hf
    rw [List.mem_singleton] at hf
    subst hf
    exact bracketFree_no_rbracket hc
  · intro n hn
    simp only [fragIdents, List.filterMap] at hn
    rw [List.mem_singleton] at hn
    exact ⟨c, hmem, hn⟩

theorem Rendered.joinParts {I : List String} (sep : String)
    (hsep : '[' ∉ sep.data) :
    ∀ parts : List String, (∀ p ∈ parts, Rendered p I) →
      Rendered (joinSep sep parts) I := by
  intro parts
  induction parts with
  | nil =>
    intro _
    exact Rendered.of_txt "" (by simp)
  | cons x rest ih =>
    intro hp
    cases rest with
    | nil => exact hp x (List.mem_cons_self x [])
    | cons y rest' =>
      have hx := hp x (List.mem_cons_self x (y :: rest'))
      have hrest : ∀ p ∈ y :: rest', Rendered p I :=
        fun p hm => hp p (List.mem_cons_of_mem x hm)
      exact (hx.append (Rendered.of_txt sep hsep)).append (ih hrest)

theorem Rendered.scan {s : String} {I : List String} (h : Rendered s I) :
    ∀ n ∈ scanIdents s, ∃ c ∈ I, n = c.data := by
  obtain ⟨fs, hdata, hok, hids⟩ := h
  intro n hn
  unfold scanIdents at hn
  rw [hdata, scan_render fs hok] at hn
  exact hids n hn

/- ── Decimal rendering holds no brackets ── -/

theorem digitChar_ne_lbracket : ∀ m : Nat, Nat.digitChar m ≠ '['
  | 0 => by decide
  | 1 => by decide
  | 2 => by decide
  | 3 => by decide
  | 4 => by decide
  | 5 => by decide
  | 6 => by decide
  | 7 => by decide
  | 8 => by decide
  | 9 => by decide
  | 10 => by decide
  | 11 => by decide
  | 12 => by decide
  | 13 => by decide
  | 14 => by decide
  | 15 => by decide
  | (m + 16) => by
    intro h
    unfold Nat.digitChar at h
    repeat rw [if_neg (by omega)] at h
    exact absurd h (by decide)

theorem toDigitsCore_mem (b f : Nat) : ∀ (n : Nat) (ds : List Char) (c : Char),
    c ∈ Nat.toDigitsCore b f n ds → c ∈ ds ∨ ∃ m, c = Nat.digitChar m := by
  induction f with
  | zero =>
    intro n ds c h
    simp only [Nat.toDigitsCore] at h
    exact .inl h
  | succ f ih =>
    intro n ds c h
    simp only [Nat.toDigitsCore] at h
    split at h
    · rcases List.mem_cons.mp h with h | h
      · exact .inr ⟨n % b, h⟩
      · exact .inl h
    · rcases ih (n / b) (Nat.digitChar (n % b) :: ds) c h with h | ⟨m, hm⟩
      · rcases List.mem_cons.mp h with h | h
        · exact .inr ⟨n % b, h⟩
        · exact .inl h
      · exact .inr ⟨m, hm⟩

theorem natRepr_no_lbracket (n : Nat) : '[' ∉ (toString n).data := by
  intro hmem
  have heq : (toString n).data = Nat.toDigitsCore 10 (n + 1) n [] := rfl
  rw [heq] at hmem
  rcases toDigitsCore_mem 10 (n + 1) n [] '[' hmem with h | ⟨m, hm⟩
  · simp at h
  · exact digitChar_ne_lbracket m hm.symm

theorem Rendered.placeholder {I : List String} (pre : String)
    (hpre : '[' ∉ pre.data) (n : Nat) : Rendered (pre ++ toString n) I := by
  apply Rendered.of_txt
  rw [String.data_append]
  intro hmem
  rcases List.mem_append.mp hmem with h | h
  · exact hpre h
  · exact natRepr_no_lbracket n h

theorem atP_no_lbracket (n : Nat) : '[' ∉ ("@P" ++ toString n).data := by
  rw [String.data_append]
  intro hmem
  rcases List.mem_append.mp hmem with h | h
  · exact absurd h (by decide)
  · exact natRepr_no_lbracket n h

theorem Rendered.natStr {I : List String} (n : Nat) : Rendered (toString n) I :=
  Rendered.of_txt _ (natRepr_no_lbracket n)

theorem Rendered.negStr {I : List String} (neg : Bool) :
    Rendered (if neg then "NOT " else "") I := by
  cases neg
  · exact Rendered.of_txt "" (by decide)
  · exact Rendered.of_txt "NOT " (by decide)

/- ── Generator invariants per condition ── -/

theorem pushInParams_spec : ∀ (items ps : List String) (off : Nat),
    (pushInParams items ps off).2 = ps ++ items ∧
    ∀ ph ∈ (pushInParams items ps off).1, '[' ∉ ph.data := by
  intro items
  induction items with
  | nil =>
    intro ps off
    refine ⟨by simp [pushInParams], ?_⟩
    intro ph h
    simp [pushInParams] at h
  | cons it rest ih =>
    intro ps off
    constructor
    · simp only [pushInParams]
      rw [(ih (ps ++ [it]) off).1]
      simp
    · intro ph hph
      simp only [pushInParams] at hph
      rcases List.mem_cons.mp hph with h | h
      · subst h
        exact atP_no_lbracket _
      · exact (ih (ps ++ [it]) off).2 ph h

theorem simpleCmp_spec (opSql : String) (hop : '[' ∉ opSql.data) (f : Filter)
    (ps : List String) (off : Nat) (s : String) (ps2 : List String)
    (h : simpleCmp opSql f ps off = .ok (s, ps2)) :
    (∃ v, ps2 = ps ++ [v]) ∧
    (bracketFree f.column = true → Rendered s [f.column]) := by
  unfold simpleCmp at h
  cases hv : filter_value_single f.value with
  | error e => rw [hv] at h; exact absurd h (by simp)
  | ok v =>
    rw [hv] at h
    simp only [Except.ok.injEq, Prod.mk.injEq] at h
    obtain ⟨hs, hp⟩ := h
    subst hs
    subst hp
    refine ⟨⟨v, rfl⟩, ?_⟩
    intro hbf
    exact ((((((Rendered.negStr f.negated).append
      (Rendered.of_txt "(" (by decide))).append
      (Rendered.ident hbf (List.mem_singleton.mpr rfl))).append
      (Rendered.of_txt opSql hop)).append
      (Rendered.of_txt "@P" (by decide))).append
      (Rendered.natStr _)).append
      (Rendered.of_txt ")" (by decide))

theorem build_single_filter_spec (f : Filter) (ps : List String) (off : Nat)
    (s : String) (ps2 : List String)
    (h : build_single_filter f ps off = .ok (s, ps2)) :
    (∃ t, ps2 = ps ++ t ∧ t.length = filter_leaf_count f) ∧
    (bracketFree f.column = true → Rendered s [f.column]) := by
  obtain ⟨col, op, val, neg⟩ := f
  cases op with
  | Eq =>
    simp only [build_single_filter] at h
    obtain ⟨⟨v, hv⟩, hr⟩ := simpleCmp_spec " = " (by decide) _ ps off s ps2 h
    exact ⟨⟨[v], hv, rfl⟩, hr⟩
  | Neq =>
    simp only [build_single_filter] at h
    obtain ⟨⟨v, hv⟩, hr⟩ := simpleCmp_spec " <> " (by decide) _ ps off s ps2 h
    exact ⟨⟨[v], hv, rfl⟩, hr⟩
  | Gt =>
    simp only [build_single_filter] at h
    obtain ⟨⟨v, hv⟩, hr⟩ := simpleCmp_spec " > " (by decide) _ ps off s ps2 h
    exact ⟨⟨[v], hv, rfl⟩, hr⟩
  | Gte =>
    simp only [build_single_filter] at h
    obtain ⟨⟨v, hv⟩, hr⟩ := simpleCmp_spec " >= " (by decide) _ ps off s ps2 h
    exact ⟨⟨[v], hv, rfl⟩, hr⟩
  | Lt =>
    simp only [build_single_filter] at h
    obtain ⟨⟨v, hv⟩, hr⟩ := simpleCmp_spec " < " (by decide) _ ps off s ps2 h
    exact ⟨⟨[v], hv, rfl⟩, hr⟩
  | Lte =>
    simp only [build_single_filter] at h
    obtain ⟨⟨v, hv⟩, hr⟩ := simpleCmp_spec " <= " (by decide) _ ps off s ps2 h
    exact ⟨⟨[v], hv, rfl⟩, hr⟩
  | Like =>
    simp only [build_single_filter] at h
    obtain ⟨⟨v, hv⟩, hr⟩ := simpleCmp_spec " LIKE " (by decide) _ ps off s ps2 h
    exact ⟨⟨[v], hv, rfl⟩, hr⟩
  | Ilike =>
    simp only [build_single_filter] at h
    obtain ⟨⟨v, hv⟩, hr⟩ := simpleCmp_spec " LIKE " (by decide) _ ps off s ps2 h
    exact ⟨⟨[v], hv, rfl⟩, hr⟩
  | In =>
    simp only [build_single_filter] at h
    cases val with
    | single v => exact absurd h (by simp)
    | list items =>
      simp only [Except.ok.injEq, Prod.mk.injEq] at h
      obtain ⟨hs, hp⟩ := h
      subst hs
      subst hp
      constructor
      · exact ⟨items, (pushInParams_spec items ps off).1, rfl⟩
      · intro hbf
        refine (((((Rendered.negStr neg).append
          (Rendered.of_txt "(" (by decide))).append
          (Rendered.ident hbf (List.mem_singleton.mpr rfl))).append
          (Rendered.of_txt " IN (" (by decide))).append
          (Rendered.joinParts ", " (by decide) _ ?_)).append
          (Rendered.of_txt "))" (by decide))
        intro p hp
        exact Rendered.of_txt p ((pushInParams_spec items ps off).2 p hp)
  | Is =>
    simp only [build_single_filter] at h
    cases hv : filter_value_single val with
    | error e => rw [hv] at h; exact absurd h (by simp)
    | ok v =>
      rw [hv] at h
      dsimp only at h
      by_cases h1 : lowerStr v = "null"
      · rw [if_pos h1] at h
        cases neg with
        | false =>
          simp only [Bool.false_eq_true, if_false, Except.ok.injEq,
            Prod.mk.injEq] at h
          obtain ⟨hs, hp⟩ := h
          subst hs
          subst hp
          refine ⟨⟨[], (List.append_nil ps).symm, rfl⟩, fun hbf => ?_⟩
          exact (Rendered.ident hbf (List.mem_singleton.mpr rfl)).append
            (Rendered.of_txt " IS NULL" (by decide))
        | true =>
          simp only [if_true, Except.ok.injEq, Prod.mk.injEq] at h
          obtain ⟨hs, hp⟩ := h
          subst hs
          subst hp
          refine ⟨⟨[], (List.append_nil ps).symm, rfl⟩, fun hbf => ?_⟩
          exact (Rendered.ident hbf (List.mem_singleton.mpr rfl)).append
            (Rendered.of_txt " IS NOT NULL" (by decide))
      · rw [if_neg h1] at h
        by_cases h2 : lowerStr v = "true"
        · rw [if_pos h2] at h
          cases neg with
          | false =>
            simp only [Bool.false_eq_true, if_false, Except.ok.injEq,
              Prod.mk.injEq] at h
            obtain ⟨hs, hp⟩ := h
            subst hs
            subst hp
            refine ⟨⟨[], (List.append_nil ps).symm, rfl⟩, fun hbf => ?_⟩
            exact (Rendered.ident hbf (List.mem_singleton.mpr rfl)).append
              (Rendered.of_txt " = 1" (by decide))
          | true =>
            simp only [if_true, Except.ok.injEq, Prod.mk.injEq] at h
            obtain ⟨hs, hp⟩ := h
            subst hs
            subst hp
            refine ⟨⟨[], (List.append_nil ps).symm, rfl⟩, fun hbf => ?_⟩
            exact (Rendered.ident hbf (List.mem_singleton.mpr rfl)).append
              (Rendered.of_txt " <> 1" (by decide))
        · rw [if_neg h2] at h
          by_cases h3 : lowerStr v = "false"
          · rw [if_pos h3] at h
            cases neg with
            | false =>
              simp only [Bool.false_eq_true, if_false, Except.ok.injEq,
                Prod.mk.injEq] at h
              obtain ⟨hs, hp⟩ := h
              subst hs
              subst hp
              refine ⟨⟨[], (List.append_nil ps).symm, rfl⟩, fun hbf => ?_⟩
              exact (Rendered.ident hbf (List.mem_singleton.mpr rfl)).append
                (Rendered.of_txt " = 0" (by decide))
            | true =>
              simp only [if_true, Except.ok.injEq, Prod.mk.injEq] at h
              obtain ⟨hs, hp⟩ := h
              subst hs
              subst hp
              refine ⟨⟨[], (List.append_nil ps).symm, rfl⟩, fun hbf => ?_⟩
              exact (Rendered.ident hbf (List.mem_singleton.mpr rfl)).append
                (Rendered.of_txt " <> 0" (by decide))
          · rw [if_neg h3] at h
            exact absurd h (by simp)
  | Fts =>
    simp only [build_single_filter] at h
    cases hv : filter_value_single val with
    | error e => rw [hv] at h; exact absurd h (by simp)
    | ok v =>
      rw [hv] at h
      simp only [Except.ok.injEq, Prod.mk.injEq] at h
      obtain ⟨hs, hp⟩ := h
      subst hs
      subst hp
      refine ⟨⟨[v], rfl, rfl⟩, fun hbf => ?_⟩
      exact (((((Rendered.negStr neg).append
        (Rendered.of_txt "CONTAINS(" (by decide))).append
        (Rendered.ident hbf (List.mem_singleton.mpr rfl))).append
        (Rendered.of_txt ", @P" (by decide))).append
        (Rendered.natStr _)).append
        (Rendered.of_txt ")" (by decide))

mutual

theorem build_filter_node_spec : ∀ (n : FilterNode) (ps : List String) (off : Nat)
    (s : String) (ps2 : List String), build_filter_node n ps off = .ok (s, ps2) →
    (∃ t, ps2 = ps ++ t ∧ t.length = node_leaf_count n) ∧
    ((∀ c ∈ nodeColumns n, bracketFree c = true) → Rendered s (nodeColumns n))
  | .condition f, ps, off, s, ps2, h => by
    simp only [build_filter_node] at h
    obtain ⟨ht, hr⟩ := build_single_filter_spec f ps off s ps2 h
    exact ⟨ht, fun hcols => hr (hcols f.column (List.mem_singleton.mpr rfl))⟩
  | .group_and ns, ps, off, s, ps2, h => by
    simp only [build_filter_node] at h
    cases hb : build_node_parts ns ps off with
    | error e => rw [hb] at h; exact absurd h (by simp)
    | ok r =>
      rw [hb] at h
      obtain ⟨parts, psf⟩ := r
      dsimp only at h
      obtain ⟨ht, hrs⟩ := build_node_parts_spec ns ps off parts psf hb
      by_cases hne : (parts.filter (fun p => !p.data.isEmpty)).isEmpty
      · rw [if_pos hne] at h
        simp only [Except.ok.injEq, Prod.mk.injEq] at h
        obtain ⟨hs, hp⟩ := h
        subst hs
        subst hp
        exact ⟨ht, fun _ => Rendered.of_txt "" (by decide)⟩
      · rw [if_neg hne] at h
        simp only [Except.ok.injEq, Prod.mk.injEq] at h
        obtain ⟨hs, hp⟩ := h
        subst hs
        subst hp
        refine ⟨ht, fun hcols => ?_⟩
        refine ((Rendered.of_txt "(" (by decide)).append
          (Rendered.joinParts " AND " (by decide) _ ?_)).append
          (Rendered.of_txt ")" (by decide))
        intro p hp
        exact hrs hcols p (List.mem_of_mem_filter hp)
  | .group_or ns, ps, off, s, ps2, h => by
    simp only [build_filter_node] at h
    cases hb : build_node_parts ns ps off with
    | error e => rw [hb] at h; exact absurd h (by simp)
    | ok r =>
      rw [hb] at h
      obtain ⟨parts, psf⟩ := r
      dsimp only at h
      obtain ⟨ht, hrs⟩ := build_node_parts_spec ns ps off parts psf hb
      by_cases hne : (parts.filter (fun p => !p.data.isEmpty)).isEmpty
      · rw [if_pos hne] at h
        simp only [Except.ok.injEq, Prod.mk.injEq] at h
        obtain ⟨hs, hp⟩ := h
        subst hs
        subst hp
        exact ⟨ht, fun _ => Rendered.of_txt "" (by decide)⟩
      · rw [if_neg hne] at h
        simp only [Except.ok.injEq, Prod.mk.injEq] at h
        obtain ⟨hs, hp⟩ := h
        subst hs
        subst hp
        refine ⟨ht, fun hcols => ?_⟩
        refine ((Rendered.of_txt "(" (by decide)).append
          (Rendered.joinParts " OR " (by decide) _ ?_)).append
          (Rendered.of_txt ")" (by decide))
        intro p hp
        exact hrs hcols p (List.mem_of_mem_filter hp)

theorem build_node_parts_spec : ∀ (ns : List FilterNode) (ps : List String)
    (off : Nat) (parts : List String) (ps2 : List String),
    build_node_parts ns ps off = .ok (parts, ps2) →
    (∃ t, ps2 = ps ++ t ∧ t.length = nodes_leaf_count ns) ∧
    ((∀ c ∈ nodesColumns ns, bracketFree c = true) →
      ∀ p ∈ parts, Rendered p (nodesColumns ns))
  | [], ps, off, parts, ps2, h => by
    simp only [build_node_parts, Except.ok.injEq, Prod.mk.injEq] at h
    obtain ⟨hp1, hp2⟩ := h
    subst hp1
    subst hp2
    refine ⟨⟨[], (List.append_nil ps).symm, rfl⟩, ?_⟩
    intro _ p hp
    simp at hp
  | n :: rest, ps, off, parts, ps2, h => by
    simp only [build_node_parts] at h
    cases hn : build_filter_node n ps off with
    | error e => rw [hn] at h; exact absurd h (by simp)
    | ok r =>
      rw [hn] at h
      obtain ⟨s1, psm⟩ := r
      dsimp only at h
      cases hr : build_node_parts rest psm off with
      | error e => rw [hr] at h; exact absurd h (by simp)
      | ok rr =>
        rw [hr] at h
        obtain ⟨parts2, psf⟩ := rr
        simp only [Except.ok.injEq, Prod.mk.injEq] at h
        obtain ⟨hp1, hp2⟩ := h
        subst hp1
        subst hp2
        obtain ⟨⟨t1, ht1, hl1⟩, hr1⟩ := build_filter_node_spec n ps off s1 psm hn
        obtain ⟨⟨t2, ht2, hl2⟩, hr2⟩ := build_node_parts_spec rest psm off parts2 psf hr
        constructor
        · refine ⟨t1 ++ t2, ?_, ?_⟩
          · rw [ht2, ht1, List.append_assoc]
          · simp only [List.length_append, hl1, hl2, nodes_leaf_count]
        · intro hcols p hp
          have hcol1 : ∀ c ∈ nodeColumns n, bracketFree c = true := by
            intro c hc
            apply hcols c
            show c ∈ nodesColumns (n :: rest)
            simp only [nodesColumns]
            exact List.mem_append_left _ hc
          have hcol2 : ∀ c ∈ nodesColumns rest, bracketFree c = true := by
            intro c hc
            apply hcols c
            show c ∈ nodesColumns (n :: rest)
            simp only [nodesColumns]
            exact List.mem_append_right _ hc
          rcases List.mem_cons.mp hp with hp | hp
          · subst hp
            refine (hr1 hcol1).mono ?_
            intro c hc
            simp only [nodesColumns]
            exact List.mem_append_left _ hc
          · refine (hr2 hcol2 p hp).mono ?_
            intro c hc
            simp only [nodesColumns]
            exact List.mem_append_right _ hc

end

theorem build_where_clause_spec (T : List FilterNode)
    (ps : List String) (off : Nat) (clause : String) (ps2 : List String)
    (hcols : ∀ c ∈ nodesColumns T, bracketFree c = true)
    (h : build_where_clause_with_offset T ps off = .ok (clause, ps2)) :
    (∃ t, ps2 = ps ++ t ∧ t.length = nodes_leaf_count T) ∧
    (∀ n ∈ scanIdents clause, ∃ c ∈ nodesColumns T, n = c.data) := by
  unfold build_where_clause_with_offset at h
  cases hb : build_node_parts T ps off with
  | error e => rw [hb] at h; exact absurd h (by simp)
  | ok r =>
    rw [hb] at h
    obtain ⟨parts, psf⟩ := r
    simp only [Except.ok.injEq, Prod.mk.injEq] at h
    obtain ⟨hc, hp⟩ := h
    subst hc
    subst hp
    obtain ⟨ht, hrs⟩ := build_node_parts_spec T ps off parts psf hb
    refine ⟨ht, ?_⟩
    have hrend : Rendered (joinSep " AND "
        (parts.filter (fun p => !p.data.isEmpty))) (nodesColumns T) := by
      apply Rendered.joinParts " AND " (by decide)
      intro p hp
      exact hrs hcols p (List.mem_of_mem_filter hp)
    exact hrend.scan

end Lazypaw


namespace Lazypaw

/- ── Claim theorems ── -/

/-- C1: for `GET /orders?select=id,customer(name)` over a catalog where
`orders.customer_id` is a single-column foreign key to `customers.id`,
the claim states that the parent query is
`SELECT [id],[customer_id] FROM [dbo].[orders]` and the embed batch
query projects `[name],[id]`, the join keys being projected alongside
the selected columns. The code does neither: the embed name `customer`
does not even resolve (embed resolution matches the target table name
`customers` only), and for the resolvable spelling `customers(name)`
the parent column list is `[id]` alone and the embed column list is
`[name]` alone, so the attach step finds no join keys and every parent
row receives an empty array under the embed name instead of a matching
object or null. -/
theorem C1_embed_join_key_projection :
    parse_select "id,customer(name)" =
      .ok [.column "id", .embed (.mk "customer" none [.column "name"])] ∧
    demo_catalog.find_embed "dbo" "orders" "customer" none = none ∧
    demo_catalog.find_embed "dbo" "orders" "customers" none =
      some ⟨"dbo", "customers", .ManyToOne, "customer_id", "id"⟩ ∧
    build_select orders_table
      [.column "id", .embed (.mk "customer" none [.column "name"])]
      [] [] none none false = .ok ⟨"SELECT [id] FROM [dbo].[orders]", []⟩ ∧
    build_embed_column_list customers_table [.column "name"] = "[name]" ∧
    embed_query_sql customers_table "[name]" "id" 2 =
      "SET NOCOUNT ON;\nSELECT [name] FROM [dbo].[customers] WHERE [id] IN (@P1, @P2)" ∧
    handle_embed_attach .ManyToOne "customers" "customer_id" "id"
      [[("id", .num 1)], [("id", .num 2)]] [] =
      [[("id", .num 1), ("customers", .arr [])],
       [("id", .num 2), ("customers", .arr [])]] :=
  ⟨rfl, rfl, rfl, rfl, rfl, rfl, rfl⟩

/-- C2: the claim states that an empty deduplicated join-key set gives
each parent a null for a many-to-one embed and an empty list for a
one-to-many embed. The code inserts an empty array for every join type
when the set is empty, contradicting the claim for many-to-one (and
contradicting its own non-empty path, which yields null for a
many-to-one embed with no match). The parent-row count is unchanged,
as the claim states. -/
theorem C2_empty_join_key_set :
    collect_source_values [[("id", .num 1), ("customer_id", .null)]] "customer_id" = [] ∧
    handle_embed_attach .ManyToOne "customer" "customer_id" "id"
      [[("id", .num 1), ("customer_id", .null)]] [] =
      [[("id", .num 1), ("customer_id", .null), ("customer", .arr [])]] ∧
    handle_embed_attach .ManyToOne "customer" "customer_id" "id"
      [[("id", .num 1), ("customer_id", .num 7)],
       [("id", .num 2), ("customer_id", .null)]] [] =
      [[("id", .num 1), ("customer_id", .num 7), ("customer", .null)],
       [("id", .num 2), ("customer_id", .null), ("customer", .null)]] ∧
    (∀ (jt : EmbedJoinType) (en sc tc : String) (rows ers : List Row),
      (handle_embed_attach jt en sc tc rows ers).length = rows.length) := by
  refine ⟨rfl, rfl, rfl, ?_⟩
  intro jt en sc tc rows ers
  unfold handle_embed_attach
  dsimp only
  split
  · exact List.length_map rows _
  · unfold attach_embed_rows
    exact List.length_map rows _

/-- C4: the claim states that `in.()` parses to an empty list and that
the generator rewrites the predicate to `1=0` or rejects it. Parsing
does produce the empty list, but the generator emits a bare
`([id] IN ())` predicate (invalid T-SQL) for every parameter vector
and offset: it neither rewrites nor rejects. -/
theorem C4_empty_in_list :
    parse_filter "id" "in.()" = .ok ⟨"id", .In, .list [], false⟩ ∧
    build_single_filter ⟨"id", .In, .list [], false⟩ [] 0 =
      .ok ("([id] IN ())", []) ∧
    (∀ (ps : List String) (off : Nat),
      build_single_filter ⟨"id", .In, .list [], false⟩ ps off =
        .ok ("([id] IN ())", ps)) :=
  ⟨rfl, rfl, fun _ _ => rfl⟩

/-- C3: generating the WHERE clause from a filter tree emits only
column identifiers occurring in the tree — every bracket-quoted
identifier scanned from the clause is the name of a column of the
tree (stated for trees whose column names hold no bracket characters,
which `escape_ident` leaves unchanged) — and pushes exactly one
ordinal parameter per literal leaf, with one parameter per element of
an in-list. `is` leaves bind no parameter: their `null`/`true`/`false`
operand is emitted as a keyword predicate, the special handling the
spec notes for this literal. -/
theorem C3_where_clause_identifiers_and_params (T : List FilterNode)
    (ps : List String) (off : Nat) (clause : String) (ps2 : List String)
    (hcols : ∀ c ∈ nodesColumns T, bracketFree c = true)
    (h : build_where_clause_with_offset T ps off = .ok (clause, ps2)) :
    (∃ t, ps2 = ps ++ t ∧ t.length = nodes_leaf_count T) ∧
    (∀ n ∈ scanIdents clause, ∃ c ∈ nodesColumns T, n = c.data) :=
  build_where_clause_spec T ps off clause ps2 hcols h

/-- Witness for C3 at spec scenario 2 (`or=(age.gt.18,name.like.*a*)`). -/
theorem C3_where_clause_identifiers_and_params_witness :
    (∀ c ∈ nodesColumns demo_or_tree, bracketFree c = true) ∧
    ((∃ t, ["18", "%a%"] = ([] : List String) ++ t ∧
        t.length = nodes_leaf_count demo_or_tree) ∧
     (∀ n ∈ scanIdents "(([age] > @P1) OR ([name] LIKE @P2))",
       ∃ c ∈ nodesColumns demo_or_tree, n = c.data)) :=
  ⟨by decide, C3_where_clause_identifiers_and_params demo_or_tree [] 0
    "(([age] > @P1) OR ([name] LIKE @P2))" ["18", "%a%"] (by decide) rfl⟩


/-- The `Is` arm of `build_single_filter`, written out as the
three-way case split of the source. -/
theorem is_arm_eval (col v : String) (neg : Bool) (ps : List String) (off : Nat) :
    build_single_filter ⟨col, .Is, .single v, neg⟩ ps off =
      (if lowerStr v = "null" then
        .ok (if neg then ("[" ++ escape_ident col ++ "]" ++ " IS NOT NULL", ps)
             else ("[" ++ escape_ident col ++ "]" ++ " IS NULL", ps))
      else if lowerStr v = "true" then
        .ok (if neg then ("[" ++ escape_ident col ++ "]" ++ " <> 1", ps)
             else ("[" ++ escape_ident col ++ "]" ++ " = 1", ps))
      else if lowerStr v = "false" then
        .ok (if neg then ("[" ++ escape_ident col ++ "]" ++ " <> 0", ps)
             else ("[" ++ escape_ident col ++ "]" ++ " = 0", ps))
      else .error (.BadRequest ("IS only supports null, true, false; got: " ++ v))) :=
  rfl

/-- C5: a column filter with operator `is` succeeds exactly when the
value case-insensitively equals `null`, `true` or `false`, translated
respectively to `IS NULL` (`IS NOT NULL` when negated), `= 1`
(`<> 1` when negated) and `= 0` (`<> 0` when negated); any other
value fails with bad request, and `is.NULL` in upper case behaves
identically to `is.null` (`parse_filter` keeps the operand verbatim
and the generator lowercases it). -/
theorem C5_is_filter (col v : String) (neg : Bool) (ps : List String) (off : Nat) :
    parse_filter col ("is." ++ v) = .ok ⟨col, .Is, .single v, false⟩ ∧
    ((∃ out, build_single_filter ⟨col, .Is, .single v, neg⟩ ps off = .ok out) ↔
      (lowerStr v = "null" ∨ lowerStr v = "true" ∨ lowerStr v = "false")) ∧
    (¬(lowerStr v = "null" ∨ lowerStr v = "true" ∨ lowerStr v = "false") →
      build_single_filter ⟨col, .Is, .single v, neg⟩ ps off =
        .error (.BadRequest ("IS only supports null, true, false; got: " ++ v))) ∧
    (lowerStr v = "null" →
      build_single_filter ⟨col, .Is, .single v, neg⟩ ps off =
        .ok (if neg then ("[" ++ escape_ident col ++ "]" ++ " IS NOT NULL", ps)
             else ("[" ++ escape_ident col ++ "]" ++ " IS NULL", ps))) ∧
    (lowerStr v = "true" →
      build_single_filter ⟨col, .Is, .single v, neg⟩ ps off =
        .ok (if neg then ("[" ++ escape_ident col ++ "]" ++ " <> 1", ps)
             else ("[" ++ escape_ident col ++ "]" ++ " = 1", ps))) ∧
    (lowerStr v = "false" →
      build_single_filter ⟨col, .Is, .single v, neg⟩ ps off =
        .ok (if neg then ("[" ++ escape_ident col ++ "]" ++ " <> 0", ps)
             else ("[" ++ escape_ident col ++ "]" ++ " = 0", ps))) ∧
    build_single_filter ⟨col, .Is, .single "NULL", neg⟩ ps off =
      build_single_filter ⟨col, .Is, .single "null", neg⟩ ps off := by
  refine ⟨rfl, ?_, ?_, ?_, ?_, ?_, rfl⟩
  · constructor
    · rintro ⟨out, hout⟩
      by_contra hcon
      push_neg at hcon
      obtain ⟨h1, h2, h3⟩ := hcon
      rw [is_arm_eval, if_neg h1, if_neg h2, if_neg h3] at hout
      exact absurd hout (by simp)
    · rintro (h1 | h2 | h3)
      · exact ⟨_, by rw [is_arm_eval, if_pos h1]⟩
      · have hne1 : lowerStr v ≠ "null" := by rw [h2]; decide
        exact ⟨_, by rw [is_arm_eval, if_neg hne1, if_pos h2]⟩
      · have hne1 : lowerStr v ≠ "null" := by rw [h3]; decide
        have hne2 : lowerStr v ≠ "true" := by rw [h3]; decide
        exact ⟨_, by rw [is_arm_eval, if_neg hne1, if_neg hne2, if_pos h3]⟩
  · intro hcon
    push_neg at hcon
    obtain ⟨h1, h2, h3⟩ := hcon
    rw [is_arm_eval, if_neg h1, if_neg h2, if_neg h3]
  · intro h1
    rw [is_arm_eval, if_pos h1]
  · intro h2
    have hne1 : lowerStr v ≠ "null" := by rw [h2]; decide
    rw [is_arm_eval, if_neg hne1, if_pos h2]
  · intro h3
    have hne1 : lowerStr v ≠ "null" := by rw [h3]; decide
    have hne2 : lowerStr v ≠ "true" := by rw [h3]; decide
    rw [is_arm_eval, if_neg hne1, if_neg hne2, if_pos h3]

/-- Witness for C5 at `deleted_at` with upper-case `is.NULL`. -/
theorem C5_is_filter_witness :
    lowerStr "NULL" = "null" ∧
    build_single_filter ⟨"deleted_at", .Is, .single "NULL", false⟩ [] 0 =
      .ok ("[deleted_at] IS NULL", []) := by
  have h := (C5_is_filter "deleted_at" "NULL" false [] 0).2.2.2.1 (by decide)
  exact ⟨by decide, h⟩

/-- C9: when the `events` field of a realtime subscribe request is
omitted the event-kind set is all of INSERT, UPDATE, DELETE; every
supplied event string is mapped totally — the upper-cased string
UPDATE and DELETE map to their kinds and every other string silently
maps to Insert — so no subscribe request fails over an unrecognized
event kind. -/
theorem C9_subscribe_event_kinds :
    event_set none = [.Insert, .Update, .Delete] ∧
    (∀ evts, event_set (some evts) = evts.map parse_event_kind) ∧
    (∀ e, parse_event_kind e = .Update ↔ upperStr e = "UPDATE") ∧
    (∀ e, parse_event_kind e = .Delete ↔ upperStr e = "DELETE") ∧
    (∀ e, parse_event_kind e = .Insert ↔
      ¬(upperStr e = "UPDATE" ∨ upperStr e = "DELETE")) := by
  refine ⟨rfl, fun _ => rfl, ?_, ?_, ?_⟩
  · intro e
    by_cases h1 : upperStr e = "INSERT" <;>
      by_cases h2 : upperStr e = "UPDATE" <;>
        by_cases h3 : upperStr e = "DELETE" <;>
          simp_all [parse_event_kind]
  · intro e
    by_cases h1 : upperStr e = "INSERT" <;>
      by_cases h2 : upperStr e = "UPDATE" <;>
        by_cases h3 : upperStr e = "DELETE" <;>
          simp_all [parse_event_kind]
  · intro e
    by_cases h1 : upperStr e = "INSERT" <;>
      by_cases h2 : upperStr e = "UPDATE" <;>
        by_cases h3 : upperStr e = "DELETE" <;>
          simp_all [parse_event_kind]

/-- C10: `parse_order` is total and lenient: every input returns Ok
(no order string produces a bad-request error), empty comma-separated
segments are skipped, any direction token other than `desc`
(case-insensitive) is ascending, and any third segment other than
`nullsfirst`/`nullslast` (case-insensitive) yields no nulls
ordering. -/
theorem C10_parse_order_lenient :
    (∀ s, parse_order s = .ok ((splitChar ',' s).filterMap parseOrderPart)) ∧
    (∀ s e, parse_order s ≠ .error e) ∧
    (∀ part, strTrim part = "" → parseOrderPart part = none) ∧
    (∀ part spec, parseOrderPart part = some spec →
      ∃ column restSegs, splitChar '.' (strTrim part) = column :: restSegs ∧
        spec.column = column ∧
        spec.direction = (match restSegs with
          | [] => OrderDir.Asc
          | d :: _ => if lowerStr d = "desc" then OrderDir.Desc else OrderDir.Asc) ∧
        spec.nulls = (match restSegs with
          | _ :: n :: _ =>
            if lowerStr n = "nullsfirst" then some NullsOrder.First
            else if lowerStr n = "nullslast" then some NullsOrder.Last
            else none
          | _ => none)) := by
  refine ⟨fun _ => rfl, fun s e => by simp [parse_order], ?_, ?_⟩
  · intro part h
    unfold parseOrderPart
    dsimp only
    rw [h]
    rfl
  · intro part spec h
    unfold parseOrderPart at h
    dsimp only at h
    by_cases he : (strTrim part).data.isEmpty
    · rw [if_pos he] at h
      exact absurd h (by simp)
    · rw [if_neg he] at h
      cases hs : splitChar '.' (strTrim part) with
      | nil => rw [hs] at h; exact absurd h (by simp)
      | cons column restSegs =>
        rw [hs] at h
        dsimp only at h
        rw [Option.some.injEq] at h
        subst h
        exact ⟨column, restSegs, rfl, rfl, rfl, rfl⟩

/-- Witness for C10 at the blank segment and at
`age.desc.nullsfirst`. -/
theorem C10_parse_order_lenient_witness :
    parseOrderPart " " = none ∧
    (∃ column restSegs,
      splitChar '.' (strTrim "age.desc.nullsfirst") = column :: restSegs ∧
      (OrderSpec.mk "age" .Desc (some .First)).column = column ∧
      (OrderSpec.mk "age" .Desc (some .First)).direction = (match restSegs with
        | [] => OrderDir.Asc
        | d :: _ => if lowerStr d = "desc" then OrderDir.Desc else OrderDir.Asc) ∧
      (OrderSpec.mk "age" .Desc (some .First)).nulls = (match restSegs with
        | _ :: n :: _ =>
          if lowerStr n = "nullsfirst" then some NullsOrder.First
          else if lowerStr n = "nullslast" then some NullsOrder.Last
          else none
        | _ => none)) :=
  ⟨C10_parse_order_lenient.2.2.1 " " rfl,
   C10_parse_order_lenient.2.2.2 "age.desc.nullsfirst"
     (OrderSpec.mk "age" .Desc (some .First)) rfl⟩

/-- C7: every error kind maps to exactly the status and stable code
of the error table; `Sql` errors are mapped by uppercase substring
search over the driver message in chain order — unique or foreign-key
violations to 409, permission denial to 403, login failure to 401,
invalid object name to 404, conversion or syntax failure to 400 — and
only `Sql` errors carry the raw driver message in `details`, every
other kind leaving `details` unset and every kind leaving `hint`
unset. -/
theorem C7_error_table :
    (∀ m, (Error.NotFound m).status_code = 404 ∧ (Error.NotFound m).code = "PGRST116") ∧
    (∀ m, (Error.BadRequest m).status_code = 400 ∧ (Error.BadRequest m).code = "PGRST100") ∧
    (∀ m, (Error.Unauthorized m).status_code = 401 ∧ (Error.Unauthorized m).code = "PGRST301") ∧
    (∀ m, (Error.Forbidden m).status_code = 403 ∧ (Error.Forbidden m).code = "PGRST302") ∧
    (∀ m, (Error.Conflict m).status_code = 409 ∧ (Error.Conflict m).code = "PGRST209") ∧
    (∀ n, (Error.SingleObjectExpected n).status_code = 406 ∧
      (Error.SingleObjectExpected n).code = "PGRST116") ∧
    (∀ m, (Error.Pool m).status_code = 503 ∧ (Error.Pool m).code = "PGRST503") ∧
    (∀ m, (Error.Internal m).status_code = 500 ∧ (Error.Internal m).code = "PGRST500") ∧
    (∀ m, (Error.Sql m).status_code = sql_error_to_status m) ∧
    (∀ m, (strContainsSub (upperStr m) "VIOLATION OF PRIMARY KEY"
        || strContainsSub (upperStr m) "VIOLATION OF UNIQUE KEY"
        || strContainsSub (upperStr m) "CANNOT INSERT DUPLICATE"
        || strContainsSub (upperStr m) "UNIQUE CONSTRAINT") = true →
      sql_error_to_status m = 409) ∧
    (∀ m, (strContainsSub (upperStr m) "VIOLATION OF PRIMARY KEY"
        || strContainsSub (upperStr m) "VIOLATION OF UNIQUE KEY"
        || strContainsSub (upperStr m) "CANNOT INSERT DUPLICATE"
        || strContainsSub (upperStr m) "UNIQUE CONSTRAINT") = false →
      strContainsSub (upperStr m) "FOREIGN KEY" = true →
      sql_error_to_status m = 409) ∧
    (∀ m, (strContainsSub (upperStr m) "VIOLATION OF PRIMARY KEY"
        || strContainsSub (upperStr m) "VIOLATION OF UNIQUE KEY"
        || strContainsSub (upperStr m) "CANNOT INSERT DUPLICATE"
        || strContainsSub (upperStr m) "UNIQUE CONSTRAINT") = false →
      strContainsSub (upperStr m) "FOREIGN KEY" = false →
      (strContainsSub (upperStr m) "PERMISSION DENIED"
        || strContainsSub (upperStr m) "ACCESS DENIED") = true →
      sql_error_to_status m = 403) ∧
    (∀ m, (strContainsSub (upperStr m) "VIOLATION OF PRIMARY KEY"
        || strContainsSub (upperStr m) "VIOLATION OF UNIQUE KEY"
        || strContainsSub (upperStr m) "CANNOT INSERT DUPLICATE"
        || strContainsSub (upperStr m) "UNIQUE CONSTRAINT") = false →
      strContainsSub (upperStr m) "FOREIGN KEY" = false →
      (strContainsSub (upperStr m) "PERMISSION DENIED"
        || strContainsSub (upperStr m) "ACCESS DENIED") = false →
      strContainsSub (upperStr m) "LOGIN FAILED" = true →
      sql_error_to_status m = 401) ∧
    (∀ m, (strContainsSub (upperStr m) "VIOLATION OF PRIMARY KEY"
        || strContainsSub (upperStr m) "VIOLATION OF UNIQUE KEY"
        || strContainsSub (upperStr m) "CANNOT INSERT DUPLICATE"
        || strContainsSub (upperStr m) "UNIQUE CONSTRAINT") = false →
      strContainsSub (upperStr m) "FOREIGN KEY" = false →
      (strContainsSub (upperStr m) "PERMISSION DENIED"
        || strContainsSub (upperStr m) "ACCESS DENIED") = false →
      strContainsSub (upperStr m) "LOGIN FAILED" = false →
      (strContainsSub (upperStr m) "INVALID OBJECT NAME"
        || strContainsSub (upperStr m) "DOES NOT EXIST") = true →
      sql_error_to_status m = 404) ∧
    (∀ m, (strContainsSub (upperStr m) "VIOLATION OF PRIMARY KEY"
        || strContainsSub (upperStr m) "VIOLATION OF UNIQUE KEY"
        || strContainsSub (upperStr m) "CANNOT INSERT DUPLICATE"
        || strContainsSub (upperStr m) "UNIQUE CONSTRAINT") = false →
      strContainsSub (upperStr m) "FOREIGN KEY" = false →
      (strContainsSub (upperStr m) "PERMISSION DENIED"
        || strContainsSub (upperStr m) "ACCESS DENIED") = false →
      strContainsSub (upperStr m) "LOGIN FAILED" = false →
      (strContainsSub (upperStr m) "INVALID OBJECT NAME"
        || strContainsSub (upperStr m) "DOES NOT EXIST") = false →
      (strContainsSub (upperStr m) "CONVERSION FAILED"
        || strContainsSub (upperStr m) "SYNTAX ERROR"
        || strContainsSub (upperStr m) "INCORRECT SYNTAX") = true →
      sql_error_to_status m = 400) ∧
    (∀ m, (Error.Sql m).to_api_error.details = some m) ∧
    (∀ e : Error, (∀ m, e ≠ .Sql m) → e.to_api_error.details = none) ∧
    (∀ e : Error, e.to_api_error.hint = none) := by
  refine ⟨fun m => ⟨rfl, rfl⟩, fun m => ⟨rfl, rfl⟩, fun m => ⟨rfl, rfl⟩,
    fun m => ⟨rfl, rfl⟩, fun m => ⟨rfl, rfl⟩, fun n => ⟨rfl, rfl⟩,
    fun m => ⟨rfl, rfl⟩, fun m => ⟨rfl, rfl⟩, fun m => rfl,
    ?_, ?_, ?_, ?_, ?_, ?_, fun m => rfl, ?_, ?_⟩
  · intro m h1
    simp [sql_error_to_status, h1]
  · intro m h1 h2
    simp [sql_error_to_status, h1, h2]
  · intro m h1 h2 h3
    simp [sql_error_to_status, h1, h2, h3]
  · intro m h1 h2 h3 h4
    simp [sql_error_to_status, h1, h2, h3, h4]
  · intro m h1 h2 h3 h4 h5
    simp [sql_error_to_status, h1, h2, h3, h4, h5]
  · intro m h1 h2 h3 h4 h5 h6
    simp [sql_error_to_status, h1, h2, h3, h4, h5, h6]
  · intro e he
    cases e with
    | Sql m => exact absurd rfl (he m)
    | NotFound m => rfl
    | BadRequest m => rfl
    | Unauthorized m => rfl
    | Forbidden m => rfl
    | Conflict m => rfl
    | Pool m => rfl
    | Internal m => rfl
    | SingleObjectExpected n => rfl
  · intro e
    cases e <;> rfl

/-- Witness for C7 at a permission-denied driver message. -/
theorem C7_error_table_witness :
    sql_error_to_status "permission denied for table x" = 403 :=
  (C7_error_table.2.2.2.2.2.2.2.2.2.2.2.1
    "permission denied for table x") (by decide) (by decide) (by decide)

/- ── Helper lemmas for C6 and C8 ── -/

theorem resolveArrLoop_empty_map (config : AppConfig)
    (hmap : config.role_map = []) : ∀ items : List Json,
    resolveArrLoop items config = (items.filterMap jsonAsStr).head? := by
  intro items
  induction items with
  | nil => rfl
  | cons item rest ih =>
    cases item with
    | str s => simp [resolveArrLoop, roleMapGet, hmap, jsonAsStr]
    | null => simpa [resolveArrLoop, jsonAsStr] using ih
    | bool b => simpa [resolveArrLoop, jsonAsStr] using ih
    | num n => simpa [resolveArrLoop, jsonAsStr] using ih
    | arr l => simpa [resolveArrLoop, jsonAsStr] using ih
    | obj l => simpa [resolveArrLoop, jsonAsStr] using ih

theorem resolveArrLoop_nonempty_map (config : AppConfig)
    (hmap : config.role_map ≠ []) : ∀ items : List Json,
    resolveArrLoop items config =
      (items.filterMap (fun j => (jsonAsStr j).bind
        (roleMapGet config.role_map))).head? := by
  intro items
  have hne : config.role_map.isEmpty = false := by
    cases hm : config.role_map with
    | nil => exact absurd hm hmap
    | cons a l => rfl
  induction items with
  | nil => rfl
  | cons item rest ih =>
    cases item with
    | str s =>
      cases hg : roleMapGet config.role_map s with
      | some mapped => simp [resolveArrLoop, hg, jsonAsStr]
      | none => simpa [resolveArrLoop, hg, jsonAsStr, hne] using ih
    | null => simpa [resolveArrLoop, jsonAsStr] using ih
    | bool b => simpa [resolveArrLoop, jsonAsStr] using ih
    | num n => simpa [resolveArrLoop, jsonAsStr] using ih
    | arr l => simpa [resolveArrLoop, jsonAsStr] using ih
    | obj l => simpa [resolveArrLoop, jsonAsStr] using ih

theorem stripPrefixL_eq_some (p : List Char) : ∀ (s r : List Char),
    stripPrefixL p s = some r ↔ s = p ++ r := by
  induction p with
  | nil =>
    intro s r
    simp [stripPrefixL]
  | cons c p' ih =>
    intro s r
    cases s with
    | nil => simp [stripPrefixL]
    | cons d s' =>
      by_cases hd : d = c
      · simp [stripPrefixL, hd, ih]
      · simp [stripPrefixL, hd]

theorem stripPre_eq_some (p s r : String) :
    stripPre p s = some r ↔ s = p ++ r := by
  unfold stripPre
  rw [Option.map_eq_some']
  constructor
  · rintro ⟨l, hl, hlr⟩
    subst hlr
    rw [stripPrefixL_eq_some] at hl
    apply String.ext
    rw [String.data_append]
    exact hl
  · rintro rfl
    refine ⟨r.data, ?_, rfl⟩
    rw [stripPrefixL_eq_some, String.data_append]

theorem filterMap_guard {α β : Type} (p : α → Bool) (g : α → β) (l : List α) :
    l.filterMap (fun x => if p x then some (g x) else none) =
      (l.filter p).map g := by
  induction l with
  | nil => rfl
  | cons x xs ih =>
    by_cases hx : p x <;> simp [hx, ih]

/-- C6: role resolution follows the dotted claim path; a terminal
string maps through the role table and passes verbatim when absent; a
terminal array yields the mapping of the first element with a
role-table entry — or the first string when the table is empty; an
unresolved role falls back to the configured anonymous role, and the
missing-header path is unauthorized exactly when no anonymous role is
configured while a JWT secret demands authentication. -/
theorem C6_role_resolution (claims : Claims) (config : AppConfig)
    (decodeJwt : String → Except String Claims) :
    (∀ s, navigate_claim (claims_root claims) config.role_claim = some (.str s) →
      resolve_role claims config = some ((roleMapGet config.role_map s).getD s)) ∧
    (∀ items, navigate_claim (claims_root claims) config.role_claim = some (.arr items) →
      config.role_map = [] →
      resolve_role claims config = (items.filterMap jsonAsStr).head?) ∧
    (∀ items, navigate_claim (claims_root claims) config.role_claim = some (.arr items) →
      config.role_map ≠ [] →
      resolve_role claims config =
        (items.filterMap (fun j => (jsonAsStr j).bind
          (roleMapGet config.role_map))).head?) ∧
    (map_to_db_user none config = config.anon_role) ∧
    (resolve_role claims config = none →
      map_to_db_user (some claims) config = config.anon_role) ∧
    (config.jwt_secret.isSome →
      (authenticate_hs256 decodeJwt none config =
          .error (.Unauthorized "Authentication required") ↔
        config.anon_role = none)) := by
  refine ⟨?_, ?_, ?_, rfl, ?_, ?_⟩
  · intro s h
    unfold resolve_role
    rw [h]
    cases hg : roleMapGet config.role_map s <;> simp [hg]
  · intro items h hmap
    unfold resolve_role
    rw [h]
    exact resolveArrLoop_empty_map config hmap items
  · intro items h hmap
    unfold resolve_role
    rw [h]
    exact resolveArrLoop_nonempty_map config hmap items
  · intro h
    simp only [map_to_db_user, h]
  · intro h
    obtain ⟨sec, hsec⟩ := Option.isSome_iff_exists.mp h
    unfold authenticate_hs256
    rw [hsec]
    cases han : config.anon_role <;> simp [han]

/-- Witness for C6: a string role mapped through the role table, and
the unauthorized outcome with a secret but no anonymous role. -/
theorem C6_role_resolution_witness :
    resolve_role { role := some "admin" }
      { role_claim := "role", role_map := [("admin", "db_admin")] } =
      some "db_admin" ∧
    authenticate_hs256 (fun _ => .error "no token") none
      { jwt_secret := some "s" } =
      .error (.Unauthorized "Authentication required") := by
  constructor
  · exact (C6_role_resolution { role := some "admin" }
      { role_claim := "role", role_map := [("admin", "db_admin")] }
      (fun _ => .error "no token")).1 "admin" rfl
  · exact ((C6_role_resolution { role := some "admin" }
      { jwt_secret := some "s" }
      (fun _ => .error "no token")).2.2.2.2.2 (by decide)).mpr rfl

/-- C8: a change record is fanned out to a subscription on its table
exactly when the event set contains the operation and every filter of
the AND-joined list passes against the record (a filter whose column
is absent from the record passes, as in the source); for delete
changes the built record carries exactly the `__ct_`-prefixed
primary-key columns of the change row, prefix stripped. `fm` abstracts
`filter_matches`, whose comparison arms parse `f64`. -/
theorem C8_change_fanout (fm : Filter → Json → Bool)
    (subs : List Subscription) (tk : String) (op : ChangeOp) (record : Row) :
    fan_out fm subs tk op record =
      (subs.filter (fun sub => sub_matches fm sub op record)).map
        (fun sub => ⟨op_string op, sub.id, tk, record⟩) ∧
    (∀ sub : Subscription, sub_matches fm sub op record = true ↔
      (op ∈ sub.events ∧ ∀ f ∈ sub.filter.getD [],
        (match rowGet record f.column with
         | some v => fm f v
         | none => true) = true)) ∧
    (∀ (row : Row) (k : String) (v : Json),
      ((k, v) ∈ build_record .Delete row ↔ ("__ct_" ++ k, v) ∈ row)) := by
  refine ⟨?_, ?_, ?_⟩
  · unfold fan_out
    exact filterMap_guard (fun sub => sub_matches fm sub op record)
      (fun sub => ChangeMsg.mk (op_string op) sub.id tk record) subs
  · intro sub
    unfold sub_matches
    rw [Bool.and_eq_true, decide_eq_true_eq]
    cases hf : sub.filter with
    | none => simp
    | some filter_list => simp [List.all_eq_true]
  · intro row k v
    unfold build_record
    rw [if_pos rfl, List.mem_filterMap]
    constructor
    · rintro ⟨⟨k0, v0⟩, hmem, hg⟩
      dsimp only at hg
      cases hsp : stripPre "__ct_" k0 with
      | none => rw [hsp] at hg; exact absurd hg (by simp)
      | some pk =>
        rw [hsp] at hg
        rw [Option.some.injEq, Prod.mk.injEq] at hg
        obtain ⟨hpk, hv⟩ := hg
        subst hpk
        subst hv
        rw [stripPre_eq_some] at hsp
        exact hsp ▸ hmem
    · intro hmem
      refine ⟨("__ct_" ++ k, v), hmem, ?_⟩
      have hsp : stripPre "__ct_" ("__ct_" ++ k) = some k :=
        (stripPre_eq_some _ _ _).mpr rfl
      dsimp only
      rw [hsp]

end Lazypaw
